import Mathlib

/-!
Verification development for the starlight JavaScript engine core.

The Rust sources are shallowly embedded: pure functions become Lean
functions, stateful code becomes explicit state passing on record types,
machine integers become Nat/Int with explicit range conditions, and
fallible code returns an explicit outcome type.  Pieces of the engine
that live in modules not present in the source tree (slot.rs,
structure.rs, attributes.rs, profile.rs, the snapshot deserializer) are
modelled from the specification; each such definition carries a doc
comment saying so.
-/

/-- Interned property key: either an array index or an interned string key
(src/crates/vm/src/runtime/symbol.rs is declared but absent; the spec
describes Symbol as Index(u32) or Key(id), keys modelled by strings). -/
inductive JsSym where
| key (s : String)
| idx (n : Nat)
deriving DecidableEq, Repr

/-- NaN-boxed JavaScript value (spec section 3).  Doubles are modelled by
rationals: every concrete double arising in the claims below (sums of two
int32 values) is exactly representable in IEEE-754 binary64, so rational
arithmetic coincides with double arithmetic there.  An accessor property
stores a getter/setter pair cell; heap cells are identified by a numeric
id so that pointer equality of the source becomes id equality. -/
inductive JsValue where
| int32 (n : Int)
| num (q : ℚ)
| jsBool (b : Bool)
| null
| undef
| empty
| cell (id : Nat)
| accessorCell (getter setter : JsValue)
deriving DecidableEq, Repr

namespace JsValue

/-- JsValue::is_int32. -/
def isInt32 : JsValue → Bool
| .int32 _ => true
| _ => false

/-- JsValue::is_number: an int32 or a double. -/
def isNumber : JsValue → Bool
| .int32 _ => true
| .num _ => true
| _ => false

/-- JsValue::get_number, defined on numbers. -/
def getNumber : JsValue → ℚ
| .int32 n => (n : ℚ)
| .num q => q
| _ => 0

/-- JsValue::get_int32, defined on int32 values. -/
def getInt32 : JsValue → Int
| .int32 n => n
| _ => 0

/-- JsValue::is_cell / is_jsobject for our purposes: a heap cell. -/
def isCell : JsValue → Bool
| .cell _ => true
| _ => false

/-- JsValue::is_empty: the internal sentinel. -/
def isEmpty : JsValue → Bool
| .empty => true
| _ => false

end JsValue

/-- User-observable error values raised by the interpreter (spec section 7);
only the classes the claims mention are distinguished. -/
inductive JsError where
| typeError (msg : String)
| referenceError (name : JsSym)
| rangeError (msg : String)
deriving DecidableEq, Repr

/-!
## C3: OP_ADD int32 fast path (src/crates/starlight/src/vm/interpreter.rs,
Opcode::OP_ADD arm)
-/

/-- In-site arithmetic profile.  Modelled from the spec: profile.rs is not
in the source tree; the spec says an ArithProfile records whether int32
overflow, number-only or mixed operand types were seen. -/
structure ArithProfile where
int32Overflow : Bool
lhsSawInt32 : Bool
lhsSawNumber : Bool
lhsSawOther : Bool
rhsSawInt32 : Bool
rhsSawNumber : Bool
rhsSawOther : Bool
deriving DecidableEq, Repr

/-- ArithProfile::observe_lhs_and_rhs, modelled from the spec: record the
operand kinds seen at this site. -/
def ArithProfile.observe (p : ArithProfile) (lhs rhs : JsValue) : ArithProfile :=
{ p with
  lhsSawInt32 := p.lhsSawInt32 || lhs.isInt32
  lhsSawNumber := p.lhsSawNumber || lhs.isNumber
  lhsSawOther := p.lhsSawOther || !lhs.isNumber
  rhsSawInt32 := p.rhsSawInt32 || rhs.isInt32
  rhsSawNumber := p.rhsSawNumber || rhs.isNumber
  rhsSawOther := p.rhsSawOther || !rhs.isNumber }

/-- ArithProfile::set_observed_int32_overflow. -/
def ArithProfile.setOverflow (p : ArithProfile) : ArithProfile :=
{ p with int32Overflow := true }

/-- Result of one arithmetic opcode: a pushed value, or the slow path that
converts operands via to_primitive/to_number, which can run user code and
is outside this model. -/
inductive AddResult where
| value (v : JsValue)
| slowPath
deriving DecidableEq, Repr

/-- Smallest int32. -/
def int32Min : Int := -(2 ^ 31)

/-- One past the largest int32. -/
def int32Bound : Int := 2 ^ 31

/-- i32::checked_add of the source: the sum if it is representable. -/
def checkedAdd (a b : Int) : Option Int :=
if int32Min ≤ a + b ∧ a + b < int32Bound then some (a + b) else none

/-- The OP_ADD arm of eval (interpreter.rs): observe the operands, try the
overflow-checked int32 add, on overflow record the profile bit and fall
through to the double path; non-numbers go to the slow path. -/
def evalOpAdd (p : ArithProfile) (lhs rhs : JsValue) : AddResult × ArithProfile :=
let p1 := p.observe lhs rhs
if lhs.isInt32 && rhs.isInt32 then
  match checkedAdd lhs.getInt32 rhs.getInt32 with
  | some v => (.value (.int32 v), p1)
  | none =>
      let p2 := p1.setOverflow
      (.value (.num (lhs.getNumber + rhs.getNumber)), p2)
else if lhs.isNumber && rhs.isNumber then
  (.value (.num (lhs.getNumber + rhs.getNumber)), p1)
else
  (.slowPath, p1)

/-!
## C4: exception unwinding (eval_internal, interpreter.rs lines 218-243,
and OP_PUSH_CATCH / OP_POP_CATCH)
-/

/-- A try_stack entry pushed by OP_PUSH_CATCH: saved environment, catch
instruction pointer, and saved stack pointer. -/
structure Handler where
env : Nat
catchIp : Nat
sp : Nat
deriving DecidableEq, Repr

/-- A call frame as far as unwinding is concerned.  The value stack is
listed bottom first, so the stack pointer is its length; the try_stack is
listed most recently pushed first (Vec::pop takes the last element). -/
structure Frame where
env : Nat
ip : Nat
stack : List JsValue
tryStack : List Handler
exitOnReturn : Bool
deriving DecidableEq, Repr

/-- The unwinding loop of eval_internal: pop the current frame's
try_stack; if an entry exists, restore (env, sp), push the exception and
resume at the catch ip; otherwise, unless the frame is exit_on_return,
move to the previous frame and repeat; an exit_on_return frame (or an
exhausted frame list) lets the error escape. -/
def unwind (e : JsValue) : List Frame → Except JsValue (List Frame)
| [] => .error e
| f :: rest =>
  match f.tryStack with
  | h :: ts =>
      .ok ({ f with
              env := h.env
              ip := h.catchIp
              stack := f.stack.take h.sp ++ [e]
              tryStack := ts } :: rest)
  | [] => if f.exitOnReturn then .error e else unwind e rest

/-!
## C5: OP_CALL operand decoding (interpreter.rs, Opcode::OP_CALL arm)
-/

/-- The operands OP_CALL extracts from the value stack: args_start points
argc slots below the stack pointer; the slice starting there is the
argument vector with parameter 0 deepest; the first pop below it is the
callee and the next is the receiver. -/
structure CallOperands where
args : List JsValue
callee : JsValue
thisv : JsValue
below : List JsValue
deriving DecidableEq, Repr

/-- Decode of the OP_CALL stack operands.  The stack is listed top first.
The source forms args from the argc slots below sp (slice index 0 at the
lowest address, hence the reverse), then pops the callee, then the
receiver; compiled code guarantees the stack is deep enough, which the
model makes an explicit guard. -/
def decodeCall (argc : Nat) (stack : List JsValue) : Option CallOperands :=
if argc + 2 ≤ stack.length then
  some { args := (stack.take argc).reverse
       , callee := stack.getD argc .undef
       , thisv := stack.getD (argc + 1) .undef
       , below := stack.drop (argc + 2) }
else none

/-- Outcome of the part of OP_CALL the model covers: operand decoding and
the callability check; an actual invocation runs the callee and is
outside the model. -/
inductive CallStepResult where
| notCallable (e : JsError)
| invoke (ops : CallOperands)
| stackMismatch
deriving DecidableEq, Repr

/-- JsValue::is_callable needs the object's flags; the model receives the
callability of each cell id as a predicate. -/
def valueCallable (callableIds : Nat → Bool) : JsValue → Bool
| .cell o => callableIds o
| _ => false

/-- The OP_CALL arm up to the callability test: pop the operands, then
raise the not-a-callable-object TypeError if the callee is not callable. -/
def evalOpCall (callableIds : Nat → Bool) (argc : Nat) (stack : List JsValue) :
    CallStepResult :=
match decodeCall argc stack with
| none => .stackMismatch
| some ops =>
  if valueCallable callableIds ops.callee then .invoke ops
  else .notCallable (.typeError "not a callable object")

/-- The layout claim C5 states, instantiated at a stack: read top-down as
the list s, the first N values are arg0 .. arg_N-1 in that order, then the
receiver, then the callee. -/
def c5StatedLayout (argc : Nat) (stack : List JsValue) : Prop :=
decodeCall argc stack =
  some { args := stack.take argc
       , thisv := stack.getD argc .undef
       , callee := stack.getD (argc + 1) .undef
       , below := stack.drop (argc + 2) }

/-!
## C8: jump operand encoding (frontend.rs Compiler::cjmp / goto / jmp /
try_, and branch resolution in interpreter.rs OP_JMP / OP_JMP_IF_TRUE /
OP_JMP_IF_FALSE / OP_PUSH_CATCH)
-/

/-- u32::to_le_bytes: four little-endian bytes. -/
def le4 (n : Nat) : List Nat :=
[n % 256, n / 256 % 256, n / 65536 % 256, n / 16777216 % 256]

/-- Unaligned little-endian u32 read, ip.cast::<u32>().read_unaligned(). -/
def readU32 (code : List Nat) (i : Nat) : Nat :=
code.getD i 0 + 256 * code.getD (i + 1) 0 + 65536 * code.getD (i + 2) 0
  + 16777216 * code.getD (i + 3) 0

/-- Reinterpret a u32 bit pattern as an i32 (two's complement), the
ip.cast::<i32>().read() of the branch opcodes. -/
def asI32 (u : Nat) : Int :=
if u < 2 ^ 31 then (u : Int) else (u : Int) - 2 ^ 32

/-- Wrap an integer into its u32 bit pattern (an i32 cast 'as u32'). -/
def u32ofInt (x : Int) : Nat := (x % (2 ^ 32)).toNat

/-- ByteCodeBuilder emit of an opcode byte followed by one 4-byte
little-endian operand. -/
def emitOp (code : List Nat) (op : Nat) (operand : Nat) : List Nat :=
code ++ op :: le4 operand

/-- The byte-by-byte store loop of the backpatch closures
(this.builder.code.code at p, p+1, .., p+4). -/
def writeBytes : List Nat → Nat → List Nat → List Nat
| c, _, [] => c
| c, i, b :: bs => writeBytes (c.set i b) (i + 1) bs

/-- The backpatch closure returned by Compiler::cjmp, Compiler::jmp and
Compiler::try_: at patch time the target is the current end of the code
buffer, and the closure stores the branch opcode at the placeholder site
p followed by the operand code.len() - (p + 5) in little-endian. -/
def patchJump (code : List Nat) (p : Nat) (op : Nat) : List Nat :=
writeBytes code p (op :: le4 (code.length - (p + 5)))

/-- Compiler::goto: emit OP_JMP whose operand is to - (code.len() + 5),
wrapped to u32 so backward branches store their two's complement. -/
def gotoEmit (code : List Nat) (op : Nat) (tgt : Nat) : List Nat :=
emitOp code op (u32ofInt ((tgt : Int) - ((code.length : Int) + 5)))

/-- Interpreter branch resolution: after the opcode byte at site the
i32 operand is read, ip advances past the 4 operand bytes to site + 5,
and the offset is added. -/
def resolveJump (code : List Nat) (site : Nat) : Int :=
(site : Int) + 5 + asI32 (readU32 code (site + 1))

/-!
## Object model (src/crates/vm/src/runtime/js_object.rs; the Structure,
Slot, attribute and descriptor types it needs live in modules absent
from the source tree and are modelled from the spec, sections 3, 4.2
and 4.3)
-/

/-- Property attributes.  Modelled from the spec: attributes.rs is
absent; an attribute set carries writable, enumerable and configurable
bits plus the data/accessor distinction. -/
structure Attrs where
writable : Bool
enumerable : Bool
configurable : Bool
isAccessorProp : Bool
deriving DecidableEq, Repr

/-- The W | C | E full data attributes used by the fresh-property put
path. -/
def attrsWCE : Attrs := ⟨true, true, true, false⟩

/-- An entry of a Structure's property table: slot offset and
attributes. -/
structure MapEntry where
offset : Nat
attrs : Attrs
deriving DecidableEq, Repr

/-- A stored property: value plus attributes (property_descriptor.rs is
absent; modelled from the spec). -/
structure StoredSlot where
value : JsValue
attrs : Attrs
deriving DecidableEq, Repr

/-- Indexed element storage (indexed_elements.rs is absent; modelled
from the spec: a dense vector with empty holes, an optional sparse map,
a length tracked separately, a writable-length flag and the dense-mode
flag). -/
structure IndexedElements where
vector : List JsValue
map : Option (List (Nat × StoredSlot))
length : Nat
dense : Bool
writableLength : Bool
deriving DecidableEq, Repr

/-- A hidden class.  Modelled from the spec: structure.rs is absent; a
Structure holds the ordered property table, the prototype pointer, the
free-list of deleted offsets, the slot count, and the unique and
indexed flags.  The transition memo table is omitted: no claim below
depends on two objects sharing a transitioned Structure, only on each
transition's result. -/
structure StructureData where
table : List (JsSym × MapEntry)
prototype : Option Nat
deleted : List Nat
slotsSize : Nat
unique : Bool
indexed : Bool
deriving DecidableEq, Repr

/-- A JsObject: hidden class id, slot vector, indexed elements and the
extensible/callable flags. -/
structure ObjData where
structId : Nat
slots : List JsValue
elements : IndexedElements
extensible : Bool
callable : Bool
deriving DecidableEq, Repr

/-- The object-model state: the allocated Structures and objects,
indexed by id (GcPointer identity becomes id equality). -/
structure VMState where
structs : List StructureData
objs : List ObjData
deriving DecidableEq, Repr

/-- Structure lookup by id; a dangling id yields the empty shape. -/
def structAt (st : VMState) (sid : Nat) : StructureData :=
st.structs.getD sid ⟨[], none, [], 0, false, false⟩

/-- Object lookup by id; a dangling id yields an inert object. -/
def objAt (st : VMState) (oid : Nat) : ObjData :=
st.objs.getD oid ⟨0, [], ⟨[], none, 0, true, true⟩, false, false⟩

/-- Structure::get: constant-time property table lookup. -/
def structTableGet (t : List (JsSym × MapEntry)) (k : JsSym) : Option MapEntry :=
(t.find? (fun p => decide (p.1 = k))).map (fun p => p.2)

/-- Insert into a property table, replacing the entry when the key is
already present (the table is a mapping). -/
def structTableInsert (t : List (JsSym × MapEntry)) (k : JsSym) (e : MapEntry) :
    List (JsSym × MapEntry) :=
if (t.find? (fun p => decide (p.1 = k))).isSome then
  t.map (fun p => if p.1 = k then (k, e) else p)
else t ++ [(k, e)]

/-- Remove a key from a property table (delete transition). -/
def structTableRemove (t : List (JsSym × MapEntry)) (k : JsSym) :
    List (JsSym × MapEntry) :=
t.filter (fun p => decide (p.1 ≠ k))

/-- The Slot record threaded through the property protocol.  Modelled
from the spec: slot.rs is absent; a found slot carries the value, the
attributes and the base object, and a slot populated from a structure
table entry also records that entry's offset (the spec's DefineOwn
mutates in place when a slot already exists, and the inline caches read
slots at the recorded offset, both of which need the offset here). -/
structure SlotRec where
value : JsValue
attrs : Attrs
base : Option Nat
offset : Option Nat
deriving DecidableEq, Repr

/-- Slot::accessor().setter(): the setter half of an accessor value. -/
def slotSetter (sl : SlotRec) : JsValue :=
match sl.value with
| .accessorCell _ s => s
| _ => (.undef)

/-- Slot::accessor().getter(). -/
def slotGetter (sl : SlotRec) : JsValue :=
match sl.value with
| .accessorCell g _ => g
| _ => (.undef)

/-- GetOwnNonIndexedPropertySlotMethod: look the name up in the object's
structure; on a hit fill the slot from the object's slot vector with the
entry's attributes, base and offset. -/
def getOwnNonIndexedSlot (st : VMState) (oid : Nat) (k : JsSym) : Option SlotRec :=
match structTableGet (structAt st (objAt st oid).structId).table k with
| some e => some ⟨(objAt st oid).slots.getD e.offset .empty, e.attrs, some oid, some e.offset⟩
| none => none

/-- Prototype pointer of an object: JsObject::prototype goes through the
structure. -/
def protoOf (st : VMState) (oid : Nat) : Option Nat :=
(structAt st (objAt st oid).structId).prototype

/-- Fuel-bounded prototype-chain walk of
GetNonIndexedPropertySlotMethod.  A chain that does not terminate within
the fuel (only possible for a cyclic prototype chain, on which the
source loops forever) yields none. -/
def lookupNonIndexedAux (st : VMState) (k : JsSym) : Nat → Nat → Option SlotRec
| 0, _ => none
| fuel + 1, oid =>
  match getOwnNonIndexedSlot st oid k with
  | some sl => some sl
  | none =>
    match protoOf st oid with
    | some p => lookupNonIndexedAux st k fuel p
    | none => none

/-- GetNonIndexedPropertySlotMethod: walk the prototype chain calling
the own-slot method until found or the chain ends. -/
def lookupNonIndexed (st : VMState) (oid : Nat) (k : JsSym) : Option SlotRec :=
lookupNonIndexedAux st k (st.objs.length + 1) oid

/-- Fuel-bounded prototype chain listing, the object itself first. -/
def protoChainAux (st : VMState) : Nat → Nat → List Nat
| 0, _ => []
| fuel + 1, oid =>
  oid :: (match protoOf st oid with
          | some p => protoChainAux st fuel p
          | none => [])

/-- The prototype chain of an object, the object itself first. -/
def protoChain (st : VMState) (oid : Nat) : List Nat :=
protoChainAux st (st.objs.length + 1) oid

/-- can_put_non_indexed, translated with its source shape preserved: if
the chain lookup finds an accessor, answer whether the setter is a
non-empty cell; a found data property falls through, like a miss, to
is_extensible() - the inner else that would have answered is_writable()
is dead code in the source because its guard repeats the accessor
test. -/
def canPutNonIndexed (st : VMState) (oid : Nat) (k : JsSym) : Bool :=
match lookupNonIndexed st oid k with
| some sl =>
  if sl.attrs.isAccessorProp then
    (slotSetter sl).isCell && !(slotSetter sl).isEmpty
  else (objAt st oid).extensible
| none => (objAt st oid).extensible

/-- A property descriptor with absent-able fields (property_descriptor.rs
is absent; modelled from the spec and the UNDEF_* suppression masks the
source passes to DataDescriptor::new). -/
structure Desc where
value : Option JsValue
writable : Option Bool
enumerable : Option Bool
configurable : Option Bool
getter : Option JsValue
setter : Option JsValue
deriving DecidableEq, Repr

/-- DataDescriptor::new(val, UNDEF_ENUMERABLE | UNDEF_CONFIGURABLE |
UNDEF_WRITABLE): a value with every attribute absent. -/
def descValueOnly (v : JsValue) : Desc := ⟨some v, none, none, none, none, none⟩

/-- DataDescriptor::new(val, W | C | E): a value with all attributes
present and set. -/
def descWCE (v : JsValue) : Desc :=
⟨some v, some true, some true, some true, none, none⟩

/-- This descriptor describes an accessor property. -/
def Desc.isAccessorDesc (d : Desc) : Bool := d.getter.isSome || d.setter.isSome

/-- PropertyDescriptor::is_empty: no field present. -/
def Desc.isEmptyDesc (d : Desc) : Bool :=
d.value.isNone && d.writable.isNone && d.enumerable.isNone
  && d.configurable.isNone && d.getter.isNone && d.setter.isNone

/-- StoredSlot::new(ctx, desc): materialize a descriptor, absent fields
defaulting to false/undefined.  Modelled from the spec. -/
def storedSlotNew (d : Desc) : StoredSlot :=
⟨d.value.getD .undef,
 ⟨d.writable.getD false, d.enumerable.getD false, d.configurable.getD false,
  d.isAccessorDesc⟩⟩

/-- Slot::merge / StoredSlot::merge for data descriptors: present fields
overwrite, absent fields keep the current value.  Modelled from the
spec's suppression-mask semantics. -/
def mergeDesc (curVal : JsValue) (cur : Attrs) (d : Desc) : JsValue × Attrs :=
(d.value.getD curVal,
 ⟨d.writable.getD cur.writable, d.enumerable.getD cur.enumerable,
  d.configurable.getD cur.configurable, cur.isAccessorProp⟩)

/-- Outcome type for the object model: success, a raised JsValue error,
a todo!() in the source (panic, not a JavaScript exception), or a call
into user or host code that is outside this model. -/
inductive EOut (α : Type) where
| ok (a : α)
| err (e : JsError)
| unimplemented
| hostCall
deriving DecidableEq, Repr

/-- Slot::is_defined_property_accepted: the ECMA-262 section 8.12.9
accept/reject logic for configurability and writability, modelled from
the spec (slot.rs is absent).  Returns (proceed-with-merge, returned);
a rejected define throws a TypeError when throwable. -/
def definedPropertyAccepted (curVal : JsValue) (cur : Attrs) (d : Desc)
    (throwable : Bool) : EOut (Bool × Bool) :=
let reject : EOut (Bool × Bool) :=
  if throwable then .err (.typeError "defining property is rejected") else .ok (false, false)
if d.isEmptyDesc then .ok (false, true)
else if cur.configurable then .ok (true, true)
else if d.configurable = some true then reject
else if (match d.enumerable with
         | some b => decide (b ≠ cur.enumerable)
         | none => false) then reject
else if d.isAccessorDesc ≠ cur.isAccessorProp then reject
else if !cur.isAccessorProp then
  if !cur.writable
      && (d.writable = some true
          || (match d.value with
              | some v => decide (v ≠ curVal)
              | none => false)) then reject
  else .ok (true, true)
else
  if d.getter.isSome || d.setter.isSome then reject else .ok (true, true)

/-- Put results marked on the slot by mark_put_result (slot.rs is
absent; the variants and their offsets come from the source's uses). -/
inductive PutResultType where
| noResult
| replace (offset : Nat)
| newSlot (offset : Nat)
| indexedOptimized (index : Nat)
deriving DecidableEq, Repr

/-- Update one object in the state. -/
def setObj (st : VMState) (oid : Nat) (f : ObjData → ObjData) : VMState :=
{ st with objs := st.objs.set oid (f (objAt st oid)) }

/-- FixedStorage::resize to n slots filling fresh slots with empty. -/
def resizeSlots (l : List JsValue) (n : Nat) : List JsValue :=
l.take n ++ List.replicate (n - l.length) .empty

/-- Structure::add_property_transition, modelled from the spec: allocate
a child Structure with the property at the next free offset, taking the
offset from the deleted free-list when one is available, and return the
child id and the chosen offset. -/
def addPropertyTransition (st : VMState) (sid : Nat) (k : JsSym) (a : Attrs) :
    VMState × Nat × Nat :=
let s := structAt st sid
match s.deleted with
| d :: rest =>
  let child : StructureData :=
    ⟨structTableInsert s.table k ⟨d, a⟩, s.prototype, rest, s.slotsSize,
     s.unique, s.indexed⟩
  ({ st with structs := st.structs ++ [child] }, st.structs.length, d)
| [] =>
  let child : StructureData :=
    ⟨structTableInsert s.table k ⟨s.slotsSize, a⟩, s.prototype, [],
     s.slotsSize + 1, s.unique, s.indexed⟩
  ({ st with structs := st.structs ++ [child] }, st.structs.length, s.slotsSize)

/-- Structure::change_attributes_transition, modelled from the spec:
allocate a sibling shape differing only in the attributes recorded for
the name. -/
def changeAttributesTransition (st : VMState) (sid : Nat) (k : JsSym) (a : Attrs) :
    VMState × Nat :=
let s := structAt st sid
let e := (structTableGet s.table k).getD ⟨0, a⟩
let child : StructureData :=
  ⟨structTableInsert s.table k ⟨e.offset, a⟩, s.prototype, s.deleted,
   s.slotsSize, s.unique, s.indexed⟩
({ st with structs := st.structs ++ [child] }, st.structs.length)

/-- Structure::delete_property_transition, modelled from the spec: fork
to a non-shareable (unique) Structure without the name, recording the
freed offset on the deleted free-list. -/
def deletePropertyTransition (st : VMState) (sid : Nat) (k : JsSym) (off : Nat) :
    VMState × Nat :=
let s := structAt st sid
let child : StructureData :=
  ⟨structTableRemove s.table k, s.prototype, off :: s.deleted, s.slotsSize,
   true, s.indexed⟩
({ st with structs := st.structs ++ [child] }, st.structs.length)

/-- Structure::change_indexed_transition, modelled from the spec: fork
with the indexed flag set. -/
def changeIndexedTransition (st : VMState) (sid : Nat) : VMState × Nat :=
let s := structAt st sid
let child : StructureData :=
  ⟨s.table, s.prototype, s.deleted, s.slotsSize, s.unique, true⟩
({ st with structs := st.structs ++ [child] }, st.structs.length)

/-- The add-new-property path at the end of
DefineOwnNonIndexedPropertySlotMethod: reject (todo!() when throwable)
if the object is not extensible, otherwise take an add-property
transition, resize the slot vector to the child's slot count and store
the materialized value at the fresh offset. -/
def defineOwnAddPath (st : VMState) (oid : Nat) (k : JsSym) (d : Desc)
    (throwable : Bool) : EOut (VMState × Bool × PutResultType) :=
if !(objAt st oid).extensible then
  if throwable then .unimplemented else .ok (st, false, .noResult)
else
  let stored := storedSlotNew d
  let r := addPropertyTransition st (objAt st oid).structId k stored.attrs
  let st2 := setObj r.1 oid (fun o =>
    { o with
       structId := r.2.1
       slots := (resizeSlots o.slots (structAt r.1 r.2.1).slotsSize).set r.2.2
                  stored.value })
  .ok (st2, true, .newSlot r.2.2)

/-- DefineOwnNonIndexedPropertySlotMethod (ECMA-262 section 8.12.9): a
used slot skips the own lookup; a found slot based at the object runs
the accept/reject logic, then either mutates in place at the recorded
offset (with a change-attributes transition when the attributes
changed) or re-adds through a transition; otherwise the add path
runs. -/
def defineOwnNonIndexed (st : VMState) (oid : Nat) (k : JsSym) (d : Desc)
    (slotIn : Option SlotRec) (slotUsed : Bool) (throwable : Bool) :
    EOut (VMState × Bool × PutResultType) :=
let sl? := if slotUsed then slotIn else getOwnNonIndexedSlot st oid k
match sl? with
| some sl =>
  if sl.base = some oid then
    match definedPropertyAccepted sl.value sl.attrs d throwable with
    | .err e => .err e
    | .unimplemented => .unimplemented
    | .hostCall => .hostCall
    | .ok (proceed, returned) =>
      if proceed then
        let m := mergeDesc sl.value sl.attrs d
        match sl.offset with
        | some off =>
          let st1 :=
            if m.2 ≠ sl.attrs then
              let r := changeAttributesTransition st (objAt st oid).structId k m.2
              setObj r.1 oid (fun o => { o with structId := r.2 })
            else st
          .ok (setObj st1 oid (fun o => { o with slots := o.slots.set off m.1 }),
               returned, .replace off)
        | none =>
          let r := addPropertyTransition st (objAt st oid).structId k m.2
          let st2 := setObj r.1 oid (fun o =>
            { o with
               structId := r.2.1
               slots := (resizeSlots o.slots (structAt r.1 r.2.1).slotsSize).set
                          r.2.2 m.1 })
          .ok (st2, returned, .newSlot r.2.2)
      else .ok (st, returned, .noResult)
  else defineOwnAddPath st oid k d throwable
| none => defineOwnAddPath st oid k d throwable

/-- PutNonIndexedSlotMethod: run the can_put check over the chain-lookup
slot (silently succeeding, or todo!() when throwable, on refusal); a
found own data property is redefined with the suppression-mask
descriptor, a found accessor hits the source's todo!(), and anything
else defines a fresh W | C | E data property. -/
def putNonIndexedSlot (st : VMState) (oid : Nat) (k : JsSym) (v : JsValue)
    (throwable : Bool) : EOut (VMState × Option SlotRec × PutResultType) :=
let sl? := lookupNonIndexed st oid k
if !canPutNonIndexed st oid k then
  if throwable then .unimplemented else .ok (st, sl?, .noResult)
else
  let run : EOut (VMState × Bool × PutResultType) :=
    match sl? with
    | some sl =>
      if sl.base = some oid && !sl.attrs.isAccessorProp then
        defineOwnNonIndexed st oid k (descValueOnly v) (some sl) true throwable
      else if sl.attrs.isAccessorProp then .unimplemented
      else defineOwnNonIndexed st oid k (descWCE v) (some sl) true throwable
    | none => defineOwnNonIndexed st oid k (descWCE v) none false throwable
  match run with
  | .ok (st2, _, pr) => .ok (st2, sl?, pr)
  | .err e => .err e
  | .unimplemented => .unimplemented
  | .hostCall => .hostCall

/-- GetNonIndexedSlotMethod: chain lookup, then Slot::get; a data slot
yields its value, a miss yields undefined, and an accessor invokes its
getter - user code when the getter is a cell (outside the model),
undefined otherwise.  Slot::get is modelled from the spec. -/
def getNonIndexedValue (st : VMState) (oid : Nat) (k : JsSym) : EOut JsValue :=
match lookupNonIndexed st oid k with
| some sl =>
  if sl.attrs.isAccessorProp then
    match slotGetter sl with
    | .cell _ => .hostCall
    | _ => .ok .undef
  else .ok sl.value
| none => .ok (.undef)

/-- The dense-to-sparse promotion threshold.  The spec leaves
MAX_VECTOR_SIZE as a tuning parameter; the claims do not depend on its
value. -/
def maxVectorSize : Nat := 1048576

/-- Sparse map lookup. -/
def mapFind (m : List (Nat × StoredSlot)) (i : Nat) : Option StoredSlot :=
(m.find? (fun p => decide (p.1 = i))).map (fun p => p.2)

/-- Sparse map insert-or-replace. -/
def mapInsert (m : List (Nat × StoredSlot)) (i : Nat) (s : StoredSlot) :
    List (Nat × StoredSlot) :=
if (m.find? (fun p => decide (p.1 = i))).isSome then
  m.map (fun p => if p.1 = i then (i, s) else p)
else m ++ [(i, s)]

/-- Sparse map removal. -/
def mapRemove (m : List (Nat × StoredSlot)) (i : Nat) : List (Nat × StoredSlot) :=
m.filter (fun p => decide (p.1 ≠ i))

/-- GetOwnIndexedPropertySlotMethod: a dense in-vector index yields the
cell unless it is an empty hole (the hole answers not-found without
consulting the map); otherwise the sparse map is consulted for indices
below the tracked length.  Indexed slots carry the spec's default data
attributes (attributes.rs object_data()) and record no structure
offset. -/
def getOwnIndexedSlot (st : VMState) (oid : Nat) (idx : Nat) : Option SlotRec :=
let o := objAt st oid
if o.elements.dense && idx < o.elements.vector.length then
  let v := o.elements.vector.getD idx .empty
  if v.isEmpty then none else some ⟨v, attrsWCE, some oid, none⟩
else
  match o.elements.map with
  | some m =>
    if idx < o.elements.length then
      (mapFind m idx).map (fun ss => ⟨ss.value, ss.attrs, some oid, none⟩)
    else none
  | none => none

/-- GetIndexedPropertySlotMethod: fuel-bounded prototype walk. -/
def lookupIndexedAux (st : VMState) (idx : Nat) : Nat → Nat → Option SlotRec
| 0, _ => none
| fuel + 1, oid =>
  match getOwnIndexedSlot st oid idx with
  | some sl => some sl
  | none =>
    match protoOf st oid with
    | some p => lookupIndexedAux st idx fuel p
    | none => none

/-- GetIndexedPropertySlotMethod from an object. -/
def lookupIndexed (st : VMState) (oid : Nat) (idx : Nat) : Option SlotRec :=
lookupIndexedAux st idx (st.objs.length + 1) oid

/-- can_put_indexed: a found accessor requires a non-empty setter cell,
a found data property answers its writable bit, and a miss answers
is_extensible(). -/
def canPutIndexed (st : VMState) (oid : Nat) (idx : Nat) : Bool :=
match lookupIndexed st oid idx with
| some sl =>
  if sl.attrs.isAccessorProp then
    (slotSetter sl).isCell && !(slotSetter sl).isEmpty
  else sl.attrs.writable
| none => (objAt st oid).extensible

/-- has_indexed_property: some structure on the prototype chain has the
indexed flag. -/
def hasIndexedProperty (st : VMState) (oid : Nat) : Bool :=
(protoChain st oid).any (fun o => (structAt st (objAt st o).structId).indexed)

/-- define_own_indexe_value_dense_internal: store into the dense vector,
growing it (and taking a change-indexed transition when the structure is
not yet indexed) for indices past its end, then raise the tracked length
when the index reaches it. -/
def defineOwnIndexedValueDense (st : VMState) (oid : Nat) (idx : Nat)
    (val : JsValue) (absent : Bool) : VMState :=
let stored := if absent then JsValue.undef else val
let st1 :=
  if idx < (objAt st oid).elements.vector.length then
    setObj st oid (fun o =>
      { o with elements :=
          { o.elements with vector := o.elements.vector.set idx stored } })
  else
    let stA :=
      if !(structAt st (objAt st oid).structId).indexed then
        let r := changeIndexedTransition st (objAt st oid).structId
        setObj r.1 oid (fun o => { o with structId := r.2 })
      else st
    setObj stA oid (fun o =>
      { o with elements :=
          { o.elements with
             vector := (resizeSlots o.elements.vector (idx + 1)).set idx stored } })
if (objAt st1 oid).elements.length ≤ idx then
  setObj st1 oid (fun o =>
    { o with elements := { o.elements with length := idx + 1 } })
else st1

/-- is_absent_descriptor of js_object.rs: enumerable and configurable
must not be present-and-false, accessors are excluded, and a data
descriptor is excluded unless its writability is absent (the source
phrases this through attribute suppression masks living in the absent
attributes.rs; absence is modelled by the Option fields). -/
def isAbsentDescriptor (d : Desc) : Bool :=
if d.enumerable = some false then false
else if d.configurable = some false then false
else if d.isAccessorDesc then false
else if d.value.isSome || d.writable.isSome then false
else true

/-- PropertyDescriptor::is_default: a data descriptor carrying
writable, enumerable and configurable all present and set. -/
def Desc.isDefaultDesc (d : Desc) : Bool :=
d.writable = some true && d.enumerable = some true
  && d.configurable = some true && !d.isAccessorDesc

/-- The sparse entries corresponding to a dense vector: every non-hole
cell with the default data attributes. -/
def vectorEntries (vec : List JsValue) : List (Nat × StoredSlot) :=
(List.range vec.length).filterMap (fun i =>
  let v := vec.getD i .empty
  if v.isEmpty then none else some (i, ⟨v, attrsWCE⟩))

/-- IndexedElements::make_sparse, modelled from the spec: leave dense
mode, materializing the vector's cells into the map. -/
def makeSparse (st : VMState) (oid : Nat) : VMState :=
setObj st oid (fun o =>
  { o with elements :=
      { o.elements with
         dense := false
         map := some (match o.elements.map with
                      | some m => m
                      | none => vectorEntries o.elements.vector) } })

/-- IndexedElements::make_dense, modelled from the spec: re-enter dense
mode once the map has emptied. -/
def makeDense (st : VMState) (oid : Nat) : VMState :=
setObj st oid (fun o =>
  { o with elements := { o.elements with dense := true, map := none } })

/-- IndexedElements::ensure_map, modelled from the spec: the sparse map,
created from the vector when absent. -/
def ensureMapState (st : VMState) (oid : Nat) : VMState × List (Nat × StoredSlot) :=
match (objAt st oid).elements.map with
| some m => (st, m)
| none =>
  let m := vectorEntries (objAt st oid).elements.vector
  (setObj st oid (fun o =>
    { o with elements := { o.elements with dense := false, map := some m } }), m)

/-- The sparse tail of define_own_indexed_property_internal: an existing
map entry goes through the section 8.12.9 accept/reject and merge; a
fresh index needs extensibility (todo!() when throwable on refusal),
takes the change-indexed transition when needed, raises the length and
inserts the materialized descriptor. -/
def defineOwnIndexedSparse (st : VMState) (oid : Nat) (idx : Nat) (d : Desc)
    (throwable : Bool) : EOut (VMState × Bool) :=
let r := ensureMapState st oid
let st1 := r.1
match mapFind r.2 idx with
| some entry =>
  match definedPropertyAccepted entry.value entry.attrs d throwable with
  | .err e => .err e
  | .unimplemented => .unimplemented
  | .hostCall => .hostCall
  | .ok (proceed, returned) =>
    if proceed then
      let m := mergeDesc entry.value entry.attrs d
      .ok (setObj st1 oid (fun o =>
        { o with elements :=
            { o.elements with
               map := some (mapInsert r.2 idx ⟨m.1, m.2⟩) } }), returned)
    else .ok (st1, returned)
| none =>
  if !(objAt st1 oid).extensible then
    if throwable then .unimplemented else .ok (st1, false)
  else
    let st2 :=
      if !(structAt st1 (objAt st1 oid).structId).indexed then
        let r2 := changeIndexedTransition st1 (objAt st1 oid).structId
        setObj r2.1 oid (fun o => { o with structId := r2.2 })
      else st1
    let st3 :=
      if (objAt st2 oid).elements.length ≤ idx then
        setObj st2 oid (fun o =>
          { o with elements := { o.elements with length := idx + 1 } })
      else st2
    .ok (setObj st3 oid (fun o =>
      { o with elements :=
          { o.elements with map := some (mapInsert r.2 idx (storedSlotNew d)) } }),
      true)

/-- define_own_indexed_property_internal: reject growth past a frozen
length; in dense mode a default descriptor below the vector threshold
stores directly, a non-default absent-attribute descriptor may overwrite
an existing cell in place, and anything else leaves dense mode; the
sparse tail finishes. -/
def defineOwnIndexedInternal (st : VMState) (oid : Nat) (idx : Nat) (d : Desc)
    (throwable : Bool) : EOut (VMState × Bool) :=
let o := objAt st oid
if o.elements.length ≤ idx && !o.elements.writableLength then
  if throwable then .unimplemented else .ok (st, false)
else if o.elements.dense && d.isDefaultDesc && idx < maxVectorSize then
  .ok (defineOwnIndexedValueDense st oid idx (d.value.getD .undef) d.value.isNone,
    true)
else if o.elements.dense && !d.isDefaultDesc && isAbsentDescriptor d
    && idx < o.elements.vector.length
    && !(o.elements.vector.getD idx .empty).isEmpty then
  .ok ((match d.value with
        | some v => setObj st oid (fun ob =>
            { ob with elements :=
                { ob.elements with vector := ob.elements.vector.set idx v } })
        | none => st), true)
else
  let st1 :=
    if o.elements.dense && !d.isDefaultDesc && idx < maxVectorSize then
      makeSparse st oid
    else st
  defineOwnIndexedSparse st1 oid idx d throwable

/-- PutIndexedSlotMethod: the dense fast path stores directly (marking
the slot IndexedOptimized) when the index is below the vector threshold,
the elements are dense and the prototype test passes (every object here
has the default class, so the method-table identity test of the source
holds); otherwise can_put_indexed gates (todo!() when throwable on
refusal), and the define goes through the suppression-mask descriptor
for an own data hit, todo!() for an accessor, or a fresh W | C | E
property. -/
def putIndexedSlot (st : VMState) (oid : Nat) (idx : Nat) (v : JsValue)
    (throwable : Bool) : EOut (VMState × Option SlotRec × PutResultType) :=
if idx < maxVectorSize && (objAt st oid).elements.dense
    && (match protoOf st oid with
        | none => true
        | some p => hasIndexedProperty st p) then
  .ok (defineOwnIndexedValueDense st oid idx v false, none, .indexedOptimized idx)
else
  let sl? := lookupIndexed st oid idx
  if !canPutIndexed st oid idx then
    if throwable then .unimplemented else .ok (st, sl?, .noResult)
  else
    let run : EOut (VMState × Bool) :=
      match sl? with
      | some sl =>
        if sl.base = some oid && !sl.attrs.isAccessorProp then
          defineOwnIndexedInternal st oid idx (descValueOnly v) throwable
        else if sl.attrs.isAccessorProp then .unimplemented
        else defineOwnIndexedInternal st oid idx (descWCE v) throwable
      | none => defineOwnIndexedInternal st oid idx (descWCE v) throwable
    match run with
    | .ok (st2, _) => .ok (st2, sl?, .noResult)
    | .err e => .err e
    | .unimplemented => .unimplemented
    | .hostCall => .hostCall

/-- JsObject::put_slot: dispatch on the symbol kind. -/
def putSlot (st : VMState) (oid : Nat) (k : JsSym) (v : JsValue)
    (throwable : Bool) : EOut (VMState × Option SlotRec × PutResultType) :=
match k with
| .idx i => putIndexedSlot st oid i v throwable
| _ => putNonIndexedSlot st oid k v throwable

/-- DeleteNonIndexedMethod: a missing own property deletes trivially; a
non-configurable one hits todo!() when throwable and answers false
otherwise, leaving the object unchanged; otherwise the freed offset
(from the slot, or re-derived from the structure) feeds the
delete-property transition and the slot is cleared to empty. -/
def deleteNonIndexed (st : VMState) (oid : Nat) (k : JsSym) (throwable : Bool) :
    EOut (VMState × Bool) :=
match getOwnNonIndexedSlot st oid k with
| none => .ok (st, true)
| some sl =>
  if !sl.attrs.configurable then
    if throwable then .unimplemented else .ok (st, false)
  else
    let off? : Option Nat :=
      match sl.offset with
      | some o => some o
      | none =>
        match structTableGet (structAt st (objAt st oid).structId).table k with
        | some e => some e.offset
        | none => none
    match off? with
    | none => .ok (st, true)
    | some off =>
      let r := deletePropertyTransition st (objAt st oid).structId k off
      .ok (setObj r.1 oid (fun o =>
        { o with structId := r.2, slots := o.slots.set off .empty }), true)

/-- delete_indexed_internal: indices past the length delete trivially;
a dense in-vector index clears the cell, a dense index below the vector
threshold is trivially gone; otherwise the sparse map entry is removed
when configurable (todo!() when throwable otherwise), re-entering dense
mode when the map empties. -/
def deleteIndexed (st : VMState) (oid : Nat) (idx : Nat) (throwable : Bool) :
    EOut (VMState × Bool) :=
let o := objAt st oid
if o.elements.length ≤ idx then .ok (st, true)
else if o.elements.dense && idx < o.elements.vector.length then
  .ok (setObj st oid (fun ob =>
    { ob with elements :=
        { ob.elements with vector := ob.elements.vector.set idx .empty } }), true)
else if o.elements.dense && idx < maxVectorSize then .ok (st, true)
else
  match o.elements.map with
  | none => .ok (st, true)
  | some m =>
    match mapFind m idx with
    | none => .ok (st, true)
    | some entry =>
      if !entry.attrs.configurable then
        if throwable then .unimplemented else .ok (st, false)
      else
        let m2 := mapRemove m idx
        let st2 := setObj st oid (fun ob =>
          { ob with elements := { ob.elements with map := some m2 } })
        if m2.isEmpty then .ok (makeDense st2 oid, true) else .ok (st2, true)

/-!
## Inline caches and the property opcodes (interpreter.rs OP_GET_BY_ID /
OP_TRY_GET_BY_ID / OP_PUT_BY_ID / OP_PUT_BY_VAL; the starlight crate's
object methods mirror the vm crate's and the spec section 4.3, its own
js_object.rs being absent from the source tree)
-/

/-- A feedback slot (bytecode TypeFeedBack; the weak structure reference
of a property cache is modelled by an alive flag: upgrade() succeeds
exactly when the referent survived collection). -/
inductive TypeFeedBack where
| noFeedback
| propertyCache (alive : Bool) (structId : Nat) (offset : Nat)
| putByIdCache (newStructId : Option Nat) (oldStructId : Option Nat)
    (offset : Nat) (chain : Option (List Nat))
deriving DecidableEq, Repr

/-- Result of a GET_BY_ID style step: a pushed value or a raised error,
with the feedback slot after the step; hostCall marks a user getter
invocation or a primitive receiver routed through runtime prototypes,
both outside the model. -/
inductive GetStep where
| ok (v : JsValue) (fb : TypeFeedBack)
| err (e : JsError) (fb : TypeFeedBack)
| hostCall (fb : TypeFeedBack)
deriving DecidableEq, Repr

/-- The value or error of a get step. -/
def getStepValue : GetStep → EOut JsValue
| .ok v _ => .ok v
| .err e _ => .err e
| .hostCall _ => .hostCall

/-- The feedback slot after a get step. -/
def getStepFeedback : GetStep → TypeFeedBack
| .ok _ fb => fb
| .err _ fb => fb
| .hostCall fb => fb

/-- Slot::is_load_cacheable, modelled from the spec: an own data
property (a slot with a base and a recorded offset, not an accessor) on
a non-unique Structure. -/
def loadCacheable (st : VMState) : Option SlotRec → Bool
| some sl =>
  sl.offset.isSome && !sl.attrs.isAccessorProp &&
    (match sl.base with
     | some b => !(structAt st (objAt st b).structId).unique
     | none => false)
| none => false

/-- The cache install of slow_get_by_id: when the slot is load-cacheable
the feedback becomes a PropertyCache of the base object's structure
(held weakly, hence freshly alive) and the slot's offset; otherwise the
feedback is left as it was. -/
def installCache (st : VMState) (sl? : Option SlotRec) (fb : TypeFeedBack) :
    TypeFeedBack :=
if loadCacheable st sl? then
  match sl? with
  | some sl =>
    .propertyCache true (objAt st (sl.base.getD 0)).structId (sl.offset.getD 0)
  | none => fb
else fb

/-- slow_get_by_id: generic chain lookup, cache install when
load-cacheable, then push the slot value (undefined on a miss for
GET_BY_ID, a ReferenceError for TRY_GET_BY_ID). -/
def slowGetById (st : VMState) (fb : TypeFeedBack) (oid : Nat) (k : JsSym)
    (isTry : Bool) : GetStep :=
let sl? := lookupNonIndexed st oid k
let fb2 := installCache st sl? fb
match sl? with
| some sl =>
  if sl.attrs.isAccessorProp then
    match slotGetter sl with
    | .cell _ => .hostCall fb2
    | _ => .ok .undef fb2
  else .ok sl.value fb2
| none =>
  if isTry then .err (.referenceError k) fb2 else .ok .undef fb2

/-- The OP_GET_BY_ID / OP_TRY_GET_BY_ID arm for a popped receiver: a
weakly held PropertyCache whose structure upgrades and is pointer-equal
to the receiver's structure reads slots at the recorded offset directly
and leaves the feedback untouched; anything else runs slow_get_by_id; a
primitive receiver goes to get_by_id_slow through the runtime's
prototype objects, outside the model. -/
def getByIdStep (st : VMState) (fb : TypeFeedBack) (recv : JsValue) (k : JsSym)
    (isTry : Bool) : GetStep :=
match recv with
| .cell oid =>
  match fb with
  | .propertyCache alive s off =>
    if alive ∧ s = (objAt st oid).structId then
      .ok ((objAt st oid).slots.getD off .empty) fb
    else slowGetById st fb oid k isTry
  | _ => slowGetById st fb oid k isTry
| _ => .hostCall fb

/-- The cache-hit test of the GET_BY_ID arm. -/
def isCacheHit (st : VMState) (fb : TypeFeedBack) (oid : Nat) : Bool :=
match fb with
| .propertyCache alive s _ => alive && decide (s = (objAt st oid).structId)
| _ => false

/-- A property cache is consistent with the heap when the structure it
records maps the name to a data entry at the recorded offset - exactly
what the slow path's install establishes. -/
def cacheConsistent (st : VMState) (k : JsSym) (fb : TypeFeedBack) : Prop :=
∀ alive s off, fb = .propertyCache alive s off →
  ∃ e, structTableGet (structAt st s).table k = some e
    ∧ e.offset = off ∧ e.attrs.isAccessorProp = false

/-- Slot::is_put_cacheable, modelled from the spec: the put reached a
marked result on a non-accessor slot. -/
def isPutCacheable (sl? : Option SlotRec) (pr : PutResultType) : Bool :=
(match pr with
 | .noResult => false
 | _ => true)
  && (match sl? with
      | some sl => !sl.attrs.isAccessorProp
      | none => true)

/-- put_by_id_slow: run put_slot, then try to install a write cache: a
cacheable put based at the receiver installs, for a Replace result, the
receiver's current structure and the marked offset (the New result
returns before the install code, which is unreachable behind it). -/
def putByIdSlow (st : VMState) (fb : TypeFeedBack) (oid : Nat) (k : JsSym)
    (v : JsValue) (strict : Bool) : EOut (VMState × TypeFeedBack) :=
match putNonIndexedSlot st oid k v strict with
| .err e => .err e
| .unimplemented => .unimplemented
| .hostCall => .hostCall
| .ok (st2, sl?, pr) =>
  if isPutCacheable sl? pr
      && (match sl? with
          | some sl => sl.base.isSome
          | none => false) then
    match sl? with
    | some sl =>
      if sl.base = some oid then
        match pr with
        | .newSlot _ => .ok (st2, fb)
        | .replace off =>
          .ok (st2, .putByIdCache none (some (objAt st2 oid).structId) off none)
        | .indexedOptimized i =>
          .ok (st2, .putByIdCache none (some (objAt st2 oid).structId) i none)
        | .noResult => .ok (st2, fb)
      else .ok (st2, fb)
    | none => .ok (st2, fb)
  else .ok (st2, fb)

/-- The prototype-chain validation of the OP_PUT_BY_ID shape-transition
cache: each prototype object's structure must be pointer-equal to the
recorded vector, link for link (a cyclic chain, on which the source
loops, and a vector overrun, on which the source panics, are modelled
as mismatches). -/
def chainMatchesAux (st : VMState) (vec : List Nat) :
    Nat → Option Nat → Nat → Bool
| 0, _, _ => false
| _ + 1, none, _ => true
| fuel + 1, some p, i =>
  let s := (objAt st p).structId
  if i < vec.length && vec.getD i 0 = s then
    chainMatchesAux st vec fuel (structAt st s).prototype (i + 1)
  else false

/-- Chain validation from a recorded old structure. -/
def chainMatches (st : VMState) (oldSid : Nat) (vec : List Nat) : Bool :=
chainMatchesAux st vec (st.objs.length + 1) (structAt st oldSid).prototype 0

/-- Result of a PUT_BY_ID step: the state, remaining stack and feedback
after it, or a raised error; unimplemented marks a todo!()/unreachable
panic of the source and hostCall an operation outside the model. -/
inductive PutStep where
| ok (st : VMState) (stack : List JsValue) (fb : TypeFeedBack)
| err (e : JsError)
| unimplemented
| hostCall
deriving DecidableEq, Repr

/-- The OP_PUT_BY_ID arm: pop the receiver, then the value; a non-object
receiver pops both operands and does nothing at all, strict or not; an
object receiver consults the PutByIdFeedBack (direct slot write on a
shape match, with chain validation for the transition form), falling to
put_by_id_slow otherwise. -/
def evalOpPutById (st : VMState) (fb : TypeFeedBack) (stack : List JsValue)
    (k : JsSym) (strict : Bool) : PutStep :=
match stack with
| object :: value :: rest =>
  match object with
  | .cell oid =>
    let slowRes : PutStep :=
      match putByIdSlow st fb oid k value strict with
      | .ok (st2, fb2) => .ok st2 rest fb2
      | .err e => .err e
      | .unimplemented => .unimplemented
      | .hostCall => .hostCall
    match fb with
    | .putByIdCache newS oldS off chain =>
      if oldS = some (objAt st oid).structId then
        match newS with
        | none =>
          .ok (setObj st oid (fun o => { o with slots := o.slots.set off value }))
            rest fb
        | some _ =>
          if chainMatches st (oldS.getD 0) (chain.getD []) then
            .ok (setObj st oid (fun o =>
              { o with slots := o.slots.set off value })) rest fb
          else slowRes
      else slowRes
    | .noFeedback => slowRes
    | .propertyCache _ _ _ => .unimplemented
  | _ => .ok st rest fb
| _ => .hostCall

/-- JsValue::to_symbol, modelled from the spec: primitives intern to an
index or string key without side effects; converting a heap cell runs
to_primitive, which may execute user code, outside the model. -/
def toSymbol : JsValue → EOut JsSym
| .int32 n => if 0 ≤ n then .ok (.idx n.toNat) else .ok (.key (toString n))
| .num q => .ok (.key (toString q.num ++ "/" ++ toString q.den))
| .jsBool b => .ok (.key (if b then "true" else "false"))
| .null => .ok (.key "null")
| .undef => .ok (.key "undefined")
| .empty => .ok (.key "")
| .cell _ => .hostCall
| .accessorCell _ _ => .hostCall

/-- Result of a PUT_BY_VAL step (its feedback slot is a ByValProfile,
which records operand kinds only and carries no cached state the claims
mention). -/
inductive ByValStep where
| ok (st : VMState) (stack : List JsValue)
| err (e : JsError)
| unimplemented
| hostCall
deriving DecidableEq, Repr

/-- The OP_PUT_BY_VAL arm: pop the receiver, pop and convert the key,
pop the value; an object receiver goes through put with the code
block's strictness, while any other receiver completes with no effect
at all. -/
def evalOpPutByVal (st : VMState) (stack : List JsValue) (strict : Bool) :
    ByValStep :=
match stack with
| object :: keyv :: rest =>
  match toSymbol keyv with
  | .err e => .err e
  | .unimplemented => .unimplemented
  | .hostCall => .hostCall
  | .ok k =>
    match rest with
    | value :: rest2 =>
      match object with
      | .cell oid =>
        match putSlot st oid k value strict with
        | .ok (st2, _, _) => .ok st2 rest2
        | .err e => .err e
        | .unimplemented => .unimplemented
        | .hostCall => .hostCall
      | _ => .ok st rest2
    | [] => .hostCall
| _ => .hostCall

/-!
## The C1 claim, spelled out over the model
-/

/-- An object owns a setter for the name: an own accessor property whose
setter is a non-empty cell. -/
def ownSetterPresent (st : VMState) (o : Nat) (k : JsSym) : Bool :=
match getOwnNonIndexedSlot st o k with
| some sl =>
  sl.attrs.isAccessorProp && (slotSetter sl).isCell && !(slotSetter sl).isEmpty
| none => false

/-- The name is an own writable data property of the object. -/
def ownWritableData (st : VMState) (oid : Nat) (k : JsSym) : Bool :=
match getOwnNonIndexedSlot st oid k with
| some sl => !sl.attrs.isAccessorProp && sl.attrs.writable
| none => false

/-- The hypotheses of claim C1 as stated: no setter for the name exists
anywhere on the object's prototype chain, and the name is writable on
the object or absent from it with the object extensible. -/
def c1StatedHyp (st : VMState) (oid : Nat) (k : JsSym) : Bool :=
(protoChain st oid).all (fun o => !ownSetterPresent st o k)
  && (ownWritableData st oid k
      || ((getOwnNonIndexedSlot st oid k).isNone && (objAt st oid).extensible))

/-- The conclusion of claim C1: the put succeeds, the subsequent get on
the same object returns exactly the stored value, and the structure the
read consults - the object's structure right after the write - resolves
the name to a data entry whose slot holds that value. -/
def c1Conclusion (st : VMState) (oid : Nat) (k : JsSym) (v : JsValue) : Prop :=
∃ r, putNonIndexedSlot st oid k v false = .ok r
  ∧ getNonIndexedValue r.1 oid k = .ok v
  ∧ ∃ e, structTableGet (structAt r.1 (objAt r.1 oid).structId).table k = some e
      ∧ (objAt r.1 oid).slots.getD e.offset .empty = v
      ∧ e.attrs.isAccessorProp = false

/-- Claim C1 as stated, at one input. -/
def c1Stated (st : VMState) (oid : Nat) (k : JsSym) (v : JsValue) : Prop :=
c1StatedHyp st oid k = true → c1Conclusion st oid k v

/-- Empty indexed elements of a fresh object. -/
def elementsEmpty : IndexedElements := ⟨[], none, 0, true, true⟩

/-- A non-extensible object owning a writable data property x = 0. -/
def c1StateA : VMState :=
⟨[⟨[(.key "x", ⟨0, ⟨true, true, true, false⟩⟩)], none, [], 1, false, false⟩],
 [⟨0, [.int32 0], elementsEmpty, false, false⟩]⟩

/-- An extensible empty object whose prototype owns x as an accessor
with neither getter nor setter. -/
def c1StateB : VMState :=
⟨[⟨[], some 1, [], 0, false, false⟩,
  ⟨[(.key "x", ⟨0, ⟨false, false, true, true⟩⟩)], none, [], 1, false, false⟩],
 [⟨0, [], elementsEmpty, true, false⟩,
  ⟨1, [.accessorCell .undef .undef], elementsEmpty, true, false⟩]⟩

/-!
## C2: snapshot serialization (gc/snapshot/serializer.rs; the
deserializer is absent from the source tree and is modelled from the
spec, section 4.6)
-/

/-- One field of a serialized cell payload: an uninterpreted byte datum
or a reference to another heap cell by address. -/
inductive SField where
| raw (n : Nat)
| ref (addr : Nat)
deriving DecidableEq, Repr

/-- A heap cell as the snapshot sees it: its payload fields. -/
structure SCell where
fields : List SField
deriving DecidableEq, Repr

/-- The heap in walk order: address paired with cell. -/
abbrev SHeap := List (Nat × SCell)

/-- First index of an address in the reference table (the
reference_map.iter().enumerate().find of write_reference). -/
def idxOf (a : Nat) : List Nat → Nat
| [] => 0
| b :: bs => if b = a then 0 else idxOf a bs + 1

/-- The reference table built by build_heap_reference_map: every live
cell address in walk order. -/
def heapAddrs (h : SHeap) : List Nat := h.map (fun c => c.1)

/-- write_reference: a cross-reference is emitted as its index in the
reference table. -/
def serializeField (t : List Nat) : SField → SField
| .raw n => .raw n
| .ref a => .ref (idxOf a t)

/-- SnapshotSerializer::serialize at the cell level: emit every cell in
walk order, its payload's references rewritten through the reference
table (the byte-level framing - self_ref, deserializer refs, end_offset
- only delimits these payloads and is elided). -/
def serializeHeap (h : SHeap) : List SCell :=
h.map (fun c => ⟨c.2.fields.map (serializeField (heapAddrs h))⟩)

/-- Modelled from the spec: the deserializer pre-allocates one fresh
cell per snapshot entry (alloc gives the fresh address of the i-th
entry, the relocation map) and then rewrites every reference through
it. -/
def deserializeField (alloc : Nat → Nat) : SField → SField
| .raw n => .raw n
| .ref j => .ref (alloc j)

/-- Modelled from the spec: rebuild the heap, entry i at its fresh
address with its payload relocated. -/
def deserializeAux (alloc : Nat → Nat) : Nat → List SCell → SHeap
| _, [] => []
| i, c :: cs =>
  (alloc i, ⟨c.fields.map (deserializeField alloc)⟩)
    :: deserializeAux alloc (i + 1) cs

/-- Modelled from the spec: deserialize a whole snapshot. -/
def deserializeHeap (alloc : Nat → Nat) (snap : List SCell) : SHeap :=
deserializeAux alloc 0 snap

/-- Rename every address of a heap, cells and references alike. -/
def relabelHeap (f : Nat → Nat) (h : SHeap) : SHeap :=
h.map (fun c =>
  (f c.1,
   ⟨c.2.fields.map (fun fd =>
      match fd with
      | .raw n => .raw n
      | .ref a => .ref (f a))⟩))

/-- A field's references stay inside the given address table. -/
def fieldClosed (t : List Nat) : SField → Bool
| .raw _ => true
| .ref a => decide (a ∈ t)

/-- Every reference of the heap points at a live cell (the serializer
panics otherwise: write_reference unwraps the table lookup). -/
def heapClosed (h : SHeap) : Bool :=
h.all (fun c => c.2.fields.all (fieldClosed (heapAddrs h)))

/-- Observational equivalence modulo address identity: one heap is an
injective address-relabelling of the other, so every behavior that does
not inspect raw addresses is identical on the two. -/
def observEquiv (h h2 : SHeap) : Prop :=
∃ f : Nat → Nat,
  (∀ a ∈ heapAddrs h, ∀ b ∈ heapAddrs h, f a = f b → a = b)
  ∧ h2 = relabelHeap f h

/-- A property x that is writable and enumerable but not configurable,
on an otherwise plain object. -/
def stDel1 : VMState :=
⟨[⟨[(.key "x", ⟨0, ⟨true, true, false, false⟩⟩)], none, [], 1, false, false⟩],
 [⟨0, [.int32 7], elementsEmpty, true, false⟩]⟩

/-- A fully configurable own property x. -/
def stDel2 : VMState :=
⟨[⟨[(.key "x", ⟨0, ⟨true, true, true, false⟩⟩)], none, [], 1, false, false⟩],
 [⟨0, [.int32 7], elementsEmpty, true, false⟩]⟩

/-- A dense three-element array-like object. -/
def stDel3 : VMState :=
⟨[⟨[], none, [], 0, false, true⟩],
 [⟨0, [], ⟨[.int32 1, .int32 2, .int32 3], none, 3, true, true⟩, true, false⟩]⟩

/-- A sparse object holding index 5 in its map. -/
def stDel4 : VMState :=
⟨[⟨[], none, [], 0, false, true⟩],
 [⟨0, [],
   ⟨[], some [(5, ⟨.int32 9, ⟨true, true, true, false⟩⟩)], 6, false, true⟩,
   true, false⟩]⟩

/-- A two-cell heap with mutual references, used as the snapshot
witness. -/
def snapWitnessHeap : SHeap :=
[(10, ⟨[.ref 20, .raw 5]⟩), (20, ⟨[.ref 10]⟩)]

/-- An object owning a = 1 at slot 0, the C6 witness receiver. -/
def stC6 : VMState :=
⟨[⟨[(.key "a", ⟨0, ⟨true, true, true, false⟩⟩)], none, [], 1, false, false⟩],
 [⟨0, [.int32 1], elementsEmpty, true, false⟩]⟩

/-- An arithmetic profile with nothing observed yet (TypeFeedBack::None
site before execution). -/
def arithProfileZero : ArithProfile :=
  ⟨false, false, false, false, false, false, false⟩

/-- An extensible empty object with no prototype, used as a witness
receiver. -/
def emptyObjState : VMState :=
⟨[⟨[], none, [], 0, false, false⟩], [⟨0, [], elementsEmpty, true, false⟩]⟩

/-- An extensible object owning a writable data property x = 0, the C1
witness receiver. -/
def stWitC1 : VMState :=
⟨[⟨[(.key "x", ⟨0, ⟨true, true, true, false⟩⟩)], none, [], 1, false, false⟩],
 [⟨0, [.int32 0], elementsEmpty, true, false⟩]⟩

/-- C3: for all int32 operand pairs, OP_ADD pushes the exact int32 sum
when it is representable in 32-bit signed arithmetic, leaving the
profile's overflow bit as it was; otherwise it records the overflow bit
in the site's ArithProfile and falls through to the number path, pushing
the double sum (exact here, since the sum of two int32 values is always
representable in binary64). -/
theorem opAdd_int32_semantics (p : ArithProfile) (a b : Int)
    (ha : int32Min ≤ a ∧ a < int32Bound) (hb : int32Min ≤ b ∧ b < int32Bound) :
    (int32Min ≤ a + b ∧ a + b < int32Bound →
      evalOpAdd p (.int32 a) (.int32 b)
        = (.value (.int32 (a + b)), p.observe (.int32 a) (.int32 b))
      ∧ (p.observe (.int32 a) (.int32 b)).int32Overflow = p.int32Overflow)
    ∧ (¬ (int32Min ≤ a + b ∧ a + b < int32Bound) →
      evalOpAdd p (.int32 a) (.int32 b)
        = (.value (.num ((a : ℚ) + (b : ℚ))),
           (p.observe (.int32 a) (.int32 b)).setOverflow)
      ∧ ((p.observe (.int32 a) (.int32 b)).setOverflow).int32Overflow = true) := by
  constructor
  · intro h
    refine ⟨?_, rfl⟩
    simp [evalOpAdd, checkedAdd, JsValue.isInt32, JsValue.getInt32, h]
  · intro h
    refine ⟨?_, rfl⟩
    simp [evalOpAdd, checkedAdd, JsValue.isInt32, JsValue.getInt32,
      JsValue.getNumber, h]

/-- Witness for the C3 theorem at concrete operands: 2 + 3 stays int32,
while 2147483647 + 1 overflows to the double path with the profile bit
set. -/
theorem opAdd_int32_semantics_witness :
    evalOpAdd arithProfileZero (.int32 2) (.int32 3)
      = (.value (.int32 5), arithProfileZero.observe (.int32 2) (.int32 3))
    ∧ evalOpAdd arithProfileZero (.int32 2147483647) (.int32 1)
      = (.value (.num ((2147483647 : ℚ) + (1 : ℚ))),
         (arithProfileZero.observe (.int32 2147483647) (.int32 1)).setOverflow) := by
  constructor
  · have h := (opAdd_int32_semantics arithProfileZero 2 3
      (by decide) (by decide)).1 (by decide)
    simpa using h.1
  · have h := (opAdd_int32_semantics arithProfileZero 2147483647 1
      (by decide) (by decide)).2 (by decide)
    exact h.1

/-- C4: when an exception is raised, the most recently pushed try_stack
entry of the current frame is popped, the environment and stack pointer
are restored to its recorded values, and execution resumes at its catch
ip with the exception pushed (so a throw under N nested try blocks lands
in the innermost handler, the head entry); with an empty try_stack and a
frame that is not exit_on_return, the same procedure repeats in the
previous frame. -/
theorem unwind_semantics (e : JsValue) :
    (∀ (f : Frame) (rest : List Frame) (h : Handler) (ts : List Handler),
        f.tryStack = h :: ts →
        unwind e (f :: rest) =
          .ok ({ f with
                  env := h.env
                  ip := h.catchIp
                  stack := f.stack.take h.sp ++ [e]
                  tryStack := ts } :: rest))
    ∧ (∀ (f : Frame) (rest : List Frame),
        f.tryStack = [] → f.exitOnReturn = false →
        unwind e (f :: rest) = unwind e rest)
    ∧ (∀ (f : Frame) (rest : List Frame) (h : Handler) (ts : List Handler),
        f.tryStack = h :: ts → h.sp ≤ f.stack.length →
        ∃ f2 : Frame, unwind e (f :: rest) = .ok (f2 :: rest)
          ∧ f2.ip = h.catchIp ∧ f2.env = h.env
          ∧ f2.tryStack = ts
          ∧ f2.stack.length = h.sp + 1
          ∧ f2.stack.take h.sp = f.stack.take h.sp
          ∧ f2.stack.getD h.sp .empty = e) := by
  refine ⟨?_, ?_, ?_⟩
  · intro f rest h ts hts
    simp [unwind, hts]
  · intro f rest hts hexit
    simp [unwind, hts, hexit]
  · intro f rest h ts hts hsp
    refine ⟨{ f with
               env := h.env
               ip := h.catchIp
               stack := f.stack.take h.sp ++ [e]
               tryStack := ts }, by simp [unwind, hts], rfl, rfl, rfl, ?_, ?_, ?_⟩
    · simp [Nat.min_eq_left hsp]
    · show List.take h.sp (List.take h.sp f.stack ++ [e]) = List.take h.sp f.stack
      have hlen : (f.stack.take h.sp).length = h.sp := by
        simp [Nat.min_eq_left hsp]
      rw [List.take_append_of_le_length (le_of_eq hlen.symm)]
      simp [List.take_take]
    · have hlen : (f.stack.take h.sp).length = h.sp := by
        simp [Nat.min_eq_left hsp]
      rw [List.getD_append_right (f.stack.take h.sp) [e] _ _ (le_of_eq hlen),
        hlen]
      simp

/-- Witness for the C4 theorem: a frame with two handlers on its
try_stack and a three-value stack lands in the most recent handler with
the stack cut back to its recorded sp and the exception on top, and a
handlerless non-exit frame defers to the previous frame. -/
theorem unwind_semantics_witness :
    unwind (.int32 9)
      [⟨0, 100, [.int32 1, .int32 2, .int32 3], [⟨7, 42, 1⟩, ⟨8, 55, 0⟩], true⟩] =
      .ok [⟨7, 42, [.int32 1, .int32 9], [⟨8, 55, 0⟩], true⟩]
    ∧ unwind (.int32 9) [⟨0, 100, [], [], false⟩] = .error (.int32 9) := by
  constructor
  · have h := (unwind_semantics (.int32 9)).1
      ⟨0, 100, [.int32 1, .int32 2, .int32 3], [⟨7, 42, 1⟩, ⟨8, 55, 0⟩], true⟩
      [] ⟨7, 42, 1⟩ [⟨8, 55, 0⟩] rfl
    simpa using h
  · have h := (unwind_semantics (.int32 9)).2.1
      ⟨0, 100, [], [], false⟩ [] rfl rfl
    simpa [unwind] using h

/-- C5 counterexample: with two distinct arguments, a receiver and a
callee on the stack, the decode OP_CALL actually performs does not match
the layout the claim states (top-down args in order, then this, then
callee): the argument vector comes out reversed and the callee is popped
from the slot directly below the arguments, before the receiver. -/
theorem opCall_stated_layout_false :
    ¬ c5StatedLayout 2 [.int32 10, .int32 11, .int32 12, .int32 13] := by
  unfold c5StatedLayout decodeCall
  decide

/-- C5 amended: before CALL N the stack holds, top-down, the arguments in
reverse order (arg_N-1 first, arg0 deepest), then the callee, then the
receiver; the interpreter removes the N arguments as a block first, then
pops the callee, then the receiver, and only then validates callability,
raising the not-a-callable-object TypeError on failure. -/
theorem opCall_layout (args below : List JsValue) (callee thisv : JsValue)
    (callableIds : Nat → Bool) :
    decodeCall args.length (args.reverse ++ callee :: thisv :: below)
      = some ⟨args, callee, thisv, below⟩
    ∧ (valueCallable callableIds callee = false →
        evalOpCall callableIds args.length (args.reverse ++ callee :: thisv :: below)
          = .notCallable (.typeError "not a callable object")) := by
  have hrev : args.reverse.length = args.length := by simp
  have h1 : (args.reverse ++ callee :: thisv :: below).take args.length
      = args.reverse := by
    rw [← hrev, List.take_left]
  have h2 : (args.reverse ++ callee :: thisv :: below).getD args.length .undef
      = callee := by
    rw [List.getD_append_right args.reverse (callee :: thisv :: below) _ _
      (le_of_eq hrev), hrev]
    simp
  have h3 : (args.reverse ++ callee :: thisv :: below).getD (args.length + 1) .undef
      = thisv := by
    rw [List.getD_append_right args.reverse (callee :: thisv :: below) _ _
      (by rw [hrev]; omega), hrev]
    simp
  have h4 : (args.reverse ++ callee :: thisv :: below).drop (args.length + 2)
      = below := by
    have hsplit : args.reverse ++ callee :: thisv :: below
        = (args.reverse ++ [callee, thisv]) ++ below := by simp
    have hlen2 : (args.reverse ++ [callee, thisv]).length = args.length + 2 := by
      simp
    rw [hsplit, ← hlen2, List.drop_left]
  have hdec : decodeCall args.length (args.reverse ++ callee :: thisv :: below)
      = some ⟨args, callee, thisv, below⟩ := by
    unfold decodeCall
    rw [if_pos (by simp)]
    rw [h1, h2, h3, h4, List.reverse_reverse]
  refine ⟨hdec, ?_⟩
  intro hnc
  simp [evalOpCall, hdec, hnc]

/-- writeBytes leaves positions below the write start untouched. -/
theorem getD_writeBytes_lt (bs : List Nat) :
    ∀ (c : List Nat) (i k : Nat), k < i →
      (writeBytes c i bs).getD k 0 = c.getD k 0 := by
  induction bs with
  | nil => intro c i k _; rfl
  | cons b bs ih =>
      intro c i k hk
      show (writeBytes (c.set i b) (i + 1) bs).getD k 0 = c.getD k 0
      rw [ih (c.set i b) (i + 1) k (by omega)]
      rw [List.getD_eq_getElem?_getD, List.getD_eq_getElem?_getD]
      rw [List.getElem?_set_ne (by omega)]

/-- writeBytes stores the given bytes at consecutive positions. -/
theorem getD_writeBytes (bs : List Nat) :
    ∀ (c : List Nat) (i j : Nat), j < bs.length → i + bs.length ≤ c.length →
      (writeBytes c i bs).getD (i + j) 0 = bs.getD j 0 := by
  induction bs with
  | nil => intro c i j hj _; simp at hj
  | cons b bs ih =>
      intro c i j hj hlen
      match j with
      | 0 =>
          show (writeBytes (c.set i b) (i + 1) bs).getD (i + 0) 0 = b
          rw [getD_writeBytes_lt bs (c.set i b) (i + 1) (i + 0) (by omega)]
          have hi : i < c.length := by simp at hlen; omega
          rw [List.getD_eq_getElem?_getD, Nat.add_zero,
            List.getElem?_set_eq_of_lt _ hi]
          rfl
      | j + 1 =>
          show (writeBytes (c.set i b) (i + 1) bs).getD (i + (j + 1)) 0
            = bs.getD j 0
          have : i + (j + 1) = (i + 1) + j := by omega
          rw [this]
          apply ih
          · simpa using hj
          · simp at hlen ⊢; omega

/-- Recompose a u32 from its four little-endian bytes. -/
theorem le4_recompose (u : Nat) (h : u < 2 ^ 32) :
    u % 256 + 256 * (u / 256 % 256) + 65536 * (u / 65536 % 256)
      + 16777216 * (u / 16777216 % 256) = u := by
  omega

/-- Reading back a stored u32 bit pattern as an i32 recovers any integer
in the i32 range. -/
theorem asI32_u32ofInt (x : Int) (h1 : -(2 ^ 31) ≤ x) (h2 : x < 2 ^ 31) :
    asI32 (u32ofInt x) = x := by
  unfold asI32 u32ofInt
  split <;> omega

/-- C8: every i32 jump operand the compiler emits equals
target - (site + 5): the backpatch closures of cjmp, jmp and try_
(conditional jumps, JMP and PUSH_CATCH) all store
code.len() - (p + 5) at placeholder site p with the target at the
current end of code, and goto stores to - (len + 5); the interpreter
adds the operand to the address one past the 4 operand bytes, so each
branch resolves to exactly the intended target. -/
theorem jumpOperand_encoding (code : List Nat) (p op tgt : Nat) :
    (p + 5 ≤ code.length → code.length < 2 ^ 31 →
      asI32 (readU32 (patchJump code p op) (p + 1))
          = (code.length : Int) - ((p : Int) + 5)
        ∧ resolveJump (patchJump code p op) p = (code.length : Int))
    ∧ (tgt < 2 ^ 31 → code.length + 5 < 2 ^ 31 →
      asI32 (readU32 (gotoEmit code op tgt) (code.length + 1))
          = (tgt : Int) - ((code.length : Int) + 5)
        ∧ resolveJump (gotoEmit code op tgt) code.length = (tgt : Int)) := by
  constructor
  · intro hp hlen
    set u := code.length - (p + 5) with hu
    have hb : ∀ j, j < 4 →
        (patchJump code p op).getD (p + 1 + j) 0 = (le4 u).getD j 0 := by
      intro j hj
      have h := getD_writeBytes (op :: le4 u) code p (j + 1)
        (by simp [le4]; omega) (by simp [le4]; omega)
      have heq : p + (j + 1) = p + 1 + j := by omega
      rw [heq] at h
      simpa using h
    have hread : readU32 (patchJump code p op) (p + 1) = u := by
      have h0 := hb 0 (by omega)
      have h1 := hb 1 (by omega)
      have h2 := hb 2 (by omega)
      have h3 := hb 3 (by omega)
      simp only [Nat.add_zero] at h0
      unfold readU32
      rw [h0, h1, h2, h3]
      simp only [le4, List.getD_cons_zero, List.getD_cons_succ]
      exact le4_recompose u (by omega)
    have hult : u < 2 ^ 31 := by omega
    have hasi : asI32 u = (code.length : Int) - ((p : Int) + 5) := by
      unfold asI32
      rw [if_pos hult]
      omega
    refine ⟨by rw [hread, hasi], ?_⟩
    unfold resolveJump
    rw [hread, hasi]
    omega
  · intro htgt hlen
    set x : Int := (tgt : Int) - ((code.length : Int) + 5) with hx
    set u := u32ofInt x with hu
    have hu32 : u < 2 ^ 32 := by
      rw [hu]
      unfold u32ofInt
      omega
    have hb : ∀ j, j < 4 →
        (gotoEmit code op tgt).getD (code.length + 1 + j) 0 = (le4 u).getD j 0 := by
      intro j hj
      show (code ++ op :: le4 u).getD (code.length + 1 + j) 0 = (le4 u).getD j 0
      rw [List.getD_append_right code (op :: le4 u) _ _ (by omega)]
      have heq : code.length + 1 + j - code.length = j + 1 := by omega
      rw [heq]
      simp
    have hread : readU32 (gotoEmit code op tgt) (code.length + 1) = u := by
      have h0 := hb 0 (by omega)
      have h1 := hb 1 (by omega)
      have h2 := hb 2 (by omega)
      have h3 := hb 3 (by omega)
      simp only [Nat.add_zero] at h0
      unfold readU32
      rw [h0, h1, h2, h3]
      simp only [le4, List.getD_cons_zero, List.getD_cons_succ]
      exact le4_recompose u hu32
    have hasi : asI32 u = x :=
      asI32_u32ofInt x (by omega) (by omega)
    refine ⟨by rw [hread, hasi], ?_⟩
    unfold resolveJump
    rw [hread, hasi]
    omega

/-- Witness for the C8 theorem: patching a placeholder at site 3 in a
12-byte buffer resolves to 12 (the patch-time end of code), and a goto
back to offset 2 emitted at the end of the same buffer resolves to 2. -/
theorem jumpOperand_encoding_witness :
    resolveJump (patchJump (List.replicate 12 0) 3 9) 3 = (12 : Int)
    ∧ resolveJump (gotoEmit (List.replicate 12 0) 9 2) 12 = (2 : Int) := by
  constructor
  · have h := (jumpOperand_encoding (List.replicate 12 0) 3 9 0).1
      (by simp) (by simp)
    simpa using h.2
  · have h := (jumpOperand_encoding (List.replicate 12 0) 0 9 2).2
      (by omega) (by simp)
    simpa using h.2

/-- A structure-table hit on the object itself makes the chain lookup
answer the own slot at once. -/
theorem lookupNonIndexed_own (st : VMState) (oid : Nat) (k : JsSym)
    (sl : SlotRec) (h : getOwnNonIndexedSlot st oid k = some sl) :
    lookupNonIndexed st oid k = some sl := by
  unfold lookupNonIndexed lookupNonIndexedAux
  rw [h]

/-- C10: executing PUT_BY_ID or PUT_BY_VAL with a receiver that is not a
heap object pops the operands and completes with no error and no change
to any state - heap, remaining stack, or feedback - whether or not the
enclosing code block is strict; the write is a silent no-op.  (For
PUT_BY_VAL the key is one whose to_symbol conversion succeeds, i.e. any
primitive; an object key runs user conversion code first.) -/
theorem putOnPrimitive_noop (st : VMState) (fb : TypeFeedBack)
    (recv value keyv : JsValue) (rest : List JsValue) (k : JsSym)
    (strict : Bool) (hrecv : recv.isCell = false) :
    evalOpPutById st fb (recv :: value :: rest) k strict = .ok st rest fb
    ∧ (∀ k2, toSymbol keyv = .ok k2 →
        evalOpPutByVal st (recv :: keyv :: value :: rest) strict = .ok st rest) := by
  constructor
  · cases recv <;> simp [JsValue.isCell] at hrecv <;> rfl
  · intro k2 hk2
    cases recv <;> simp [JsValue.isCell] at hrecv <;>
      simp [evalOpPutByVal, hk2]

/-- Witness for the C10 theorem: a put through an int32 receiver with a
boolean key leaves a concrete state, stack and feedback untouched. -/
theorem putOnPrimitive_noop_witness :
    evalOpPutById c1StateA .noFeedback
        (.int32 5 :: .int32 9 :: [.null]) (.key "x") true
      = .ok c1StateA [.null] .noFeedback
    ∧ evalOpPutByVal c1StateA
        (.int32 5 :: .jsBool true :: .int32 9 :: [.null]) true
      = .ok c1StateA [.null] := by
  have h := putOnPrimitive_noop c1StateA .noFeedback (.int32 5) (.int32 9)
    (.jsBool true) [.null] (.key "x") true rfl
  exact ⟨h.1, h.2 (.key "true") rfl⟩

/-- C9: for an object receiver and a name found neither on the receiver
nor anywhere on its prototype chain, TRY_GET_BY_ID raises a
ReferenceError while GET_BY_ID completes without error and pushes
undefined; the feedback slot stays as it was (a miss installs nothing,
there being no load-cacheable slot). -/
theorem tryGetById_miss_refError (st : VMState) (fb : TypeFeedBack)
    (oid : Nat) (k : JsSym)
    (hcons : cacheConsistent st k fb)
    (hmiss : lookupNonIndexed st oid k = none) :
    getByIdStep st fb (.cell oid) k true = .err (.referenceError k) fb
    ∧ getByIdStep st fb (.cell oid) k false = .ok .undef fb := by
  have hslow : ∀ isTry, slowGetById st fb oid k isTry =
      (if isTry then .err (.referenceError k) fb else .ok .undef fb) := by
    intro isTry
    simp [slowGetById, hmiss, installCache, loadCacheable]
  have hnohit : ∀ alive s off, fb = .propertyCache alive s off →
      ¬(alive ∧ s = (objAt st oid).structId) := by
    intro alive s off hfb ⟨_, hs⟩
    obtain ⟨e, he, -, -⟩ := hcons alive s off hfb
    rw [hs] at he
    have : lookupNonIndexed st oid k =
        some ⟨(objAt st oid).slots.getD e.offset .empty, e.attrs, some oid,
              some e.offset⟩ :=
      lookupNonIndexed_own st oid k _ (by simp [getOwnNonIndexedSlot, he])
    rw [hmiss] at this
    cases this
  constructor
  · cases hfb : fb with
    | noFeedback => simpa [getByIdStep, hfb] using hslow true
    | putByIdCache a b c d => simpa [getByIdStep, hfb] using hslow true
    | propertyCache alive s off =>
        have hh := hnohit alive s off hfb
        have hs2 := hslow true
        rw [hfb] at hs2
        simpa [getByIdStep, hh] using hs2
  · cases hfb : fb with
    | noFeedback => simpa [getByIdStep, hfb] using hslow false
    | putByIdCache a b c d => simpa [getByIdStep, hfb] using hslow false
    | propertyCache alive s off =>
        have hh := hnohit alive s off hfb
        have hs2 := hslow false
        rw [hfb] at hs2
        simpa [getByIdStep, hh] using hs2

/-- Witness for the C9 theorem at a concrete empty object and absent
name. -/
theorem tryGetById_miss_refError_witness :
    getByIdStep emptyObjState .noFeedback (.cell 0) (.key "y") true
      = .err (.referenceError (.key "y")) .noFeedback
    ∧ getByIdStep emptyObjState .noFeedback (.cell 0) (.key "y") false
      = .ok .undef .noFeedback := by
  exact tryGetById_miss_refError emptyObjState .noFeedback 0 (.key "y")
    (by intro alive s off h; cases h) (by decide)

/-- C7, evaluated at the failing input and at the claim's good cases:
deleting the non-configurable own property x with the throwable (strict)
flag set reaches todo!() - the source panics instead of throwing the
required error value - while without the flag it returns false and
leaves the object untouched; deleting a configurable own property takes
the delete-property transition (name gone from the table, freed offset
0 recorded, unique fork) and clears the slot to empty, returning true;
deleting a dense indexed property clears the vector cell, and deleting
the last sparse map entry drops it and re-enters dense mode. -/
theorem delete_semantics_evaluated :
    deleteNonIndexed stDel1 0 (.key "x") true = .unimplemented
    ∧ deleteNonIndexed stDel1 0 (.key "x") false = .ok (stDel1, false)
    ∧ deleteNonIndexed stDel2 0 (.key "x") false =
        .ok (⟨[⟨[(.key "x", ⟨0, ⟨true, true, true, false⟩⟩)], none, [], 1,
                false, false⟩,
               ⟨[], none, [0], 1, true, false⟩],
              [⟨1, [.empty], elementsEmpty, true, false⟩]⟩, true)
    ∧ deleteIndexed stDel3 0 1 false =
        .ok (⟨[⟨[], none, [], 0, false, true⟩],
              [⟨0, [], ⟨[.int32 1, .empty, .int32 3], none, 3, true, true⟩,
                true, false⟩]⟩, true)
    ∧ deleteIndexed stDel4 0 5 false =
        .ok (⟨[⟨[], none, [], 0, false, true⟩],
              [⟨0, [], ⟨[], none, 6, true, true⟩, true, false⟩]⟩, true) := by
  refine ⟨by decide, by decide, by decide, by decide, by decide⟩

/-- The first index of an element freshly appearing after a prefix not
containing it. -/
theorem idxOf_append_self (a : Nat) (l : List Nat) :
    ∀ pre : List Nat, a ∉ pre → idxOf a (pre ++ a :: l) = pre.length := by
  intro pre
  induction pre with
  | nil => intro _; simp [idxOf]
  | cons b bs ih =>
      intro hmem
      have hba : b ≠ a := by
        intro hba
        exact hmem (by simp [hba])
      have : a ∉ bs := fun hm => hmem (List.mem_cons_of_mem b hm)
      simp [idxOf, hba, ih this]

/-- First indices agree only on equal members. -/
theorem idxOf_mem_inj (a b : Nat) :
    ∀ l : List Nat, a ∈ l → b ∈ l → idxOf a l = idxOf b l → a = b := by
  intro l
  induction l with
  | nil => intro ha; cases ha
  | cons c cs ih =>
      intro ha hb heq
      by_cases hca : c = a
      · by_cases hcb : c = b
        · rw [← hca, ← hcb]
        · rw [idxOf, idxOf, if_pos hca, if_neg hcb] at heq
          cases heq
      · by_cases hcb : c = b
        · rw [idxOf, idxOf, if_neg hca, if_pos hcb] at heq
          cases heq
        · rw [idxOf, idxOf, if_neg hca, if_neg hcb] at heq
          have ha2 : a ∈ cs := by
            cases ha with
            | head => exact absurd rfl hca
            | tail _ h => exact h
          have hb2 : b ∈ cs := by
            cases hb with
            | head => exact absurd rfl hcb
            | tail _ h => exact h
          exact ih ha2 hb2 (by omega)

/-- Deserializing the serialized tail of a heap, the reference table
fixed, reproduces the tail relabelled through table index and fresh
allocation. -/
theorem deserialize_serialize_aux (alloc : Nat → Nat) (t : List Nat) :
    ∀ (h : SHeap) (pre : List Nat), t = pre ++ heapAddrs h → t.Nodup →
    deserializeAux alloc pre.length
        (h.map (fun c => ⟨c.2.fields.map (serializeField t)⟩))
      = relabelHeap (fun a => alloc (idxOf a t)) h := by
  intro h
  induction h with
  | nil => intro pre _ _; rfl
  | cons hd tl ih =>
      intro pre ht hnd
      obtain ⟨a, c⟩ := hd
      have haddr : heapAddrs ((a, c) :: tl) = a :: heapAddrs tl := rfl
      have hamem : a ∉ pre := by
        rw [ht, haddr] at hnd
        have hdisj := (List.nodup_append.mp hnd).2.2
        intro hain
        exact hdisj hain (List.mem_cons_self a (heapAddrs tl))
      have hidx : idxOf a t = pre.length := by
        rw [ht, haddr]
        exact idxOf_append_self a (heapAddrs tl) pre hamem
      have htail : t = (pre ++ [a]) ++ heapAddrs tl := by
        rw [ht, haddr]
        simp
      have ihres := ih (pre ++ [a]) htail hnd
      show (alloc pre.length,
            ⟨(c.fields.map (serializeField t)).map (deserializeField alloc)⟩)
          :: deserializeAux alloc (pre.length + 1)
               (tl.map (fun c2 => ⟨c2.2.fields.map (serializeField t)⟩))
        = relabelHeap (fun a2 => alloc (idxOf a2 t)) ((a, c) :: tl)
      have hlen : (pre ++ [a]).length = pre.length + 1 := by simp
      rw [hlen] at ihres
      show _ = (alloc (idxOf a t),
            ⟨c.fields.map (fun fd =>
               match fd with
               | .raw n => .raw n
               | .ref b => .ref (alloc (idxOf b t)))⟩)
          :: relabelHeap (fun a2 => alloc (idxOf a2 t)) tl
      rw [hidx, ihres, List.map_map]
      have hfields : (deserializeField alloc) ∘ (serializeField t)
          = fun fd => match fd with
                      | SField.raw n => SField.raw n
                      | SField.ref b => SField.ref (alloc (idxOf b t)) := by
        funext fd
        cases fd <;> rfl
      rw [hfields]

/-- C2: deserializing the byte buffer produced by serializing a heap
reconstructs the heap exactly up to the injective address relabelling
that sends each live address through its reference-table index to its
fresh allocation - that is, a runtime observationally equivalent to the
original modulo address identity.  (The deserializer and script-level
evaluation live outside the source tree; the reconstruction is modelled
from the spec's reference-table procedure, with native references
identity-mapped and byte framing elided.) -/
theorem snapshot_roundtrip (h : SHeap) (alloc : Nat → Nat)
    (hinj : Function.Injective alloc) (hnodup : (heapAddrs h).Nodup)
    (hclosed : heapClosed h = true) :
    deserializeHeap alloc (serializeHeap h)
      = relabelHeap (fun a => alloc (idxOf a (heapAddrs h))) h
    ∧ observEquiv h (deserializeHeap alloc (serializeHeap h)) := by
  have hmain : deserializeHeap alloc (serializeHeap h)
      = relabelHeap (fun a => alloc (idxOf a (heapAddrs h))) h := by
    have := deserialize_serialize_aux alloc (heapAddrs h) h [] rfl hnodup
    simpa [deserializeHeap, serializeHeap] using this
  refine ⟨hmain, fun a => alloc (idxOf a (heapAddrs h)), ?_, hmain.symm ▸ rfl⟩
  intro a ha b hb hfab
  exact idxOf_mem_inj a b (heapAddrs h) ha hb (hinj hfab)

/-- Witness for the C2 theorem: a two-cell heap with mutual references
round-trips to the relabelled heap at fresh addresses 0 and 1, and is
observationally equivalent to it. -/
theorem snapshot_roundtrip_witness :
    deserializeHeap id (serializeHeap snapWitnessHeap)
      = [(0, ⟨[.ref 1, .raw 5]⟩), (1, ⟨[.ref 0]⟩)]
    ∧ observEquiv snapWitnessHeap
        (deserializeHeap id (serializeHeap snapWitnessHeap)) := by
  refine ⟨by decide, ?_⟩
  exact (snapshot_roundtrip snapWitnessHeap id (fun a b hab => hab)
    (by decide) (by decide)).2

/-- An own-slot hit decomposes into its structure table entry. -/
theorem getOwnNonIndexedSlot_base (st : VMState) (oid : Nat) (k : JsSym)
    (sl : SlotRec) (h : getOwnNonIndexedSlot st oid k = some sl) :
    sl.base = some oid
    ∧ ∃ e, structTableGet (structAt st (objAt st oid).structId).table k = some e
        ∧ sl = ⟨(objAt st oid).slots.getD e.offset .empty, e.attrs, some oid,
                some e.offset⟩ := by
  unfold getOwnNonIndexedSlot at h
  cases he : structTableGet (structAt st (objAt st oid).structId).table k with
  | none => rw [he] at h; cases h
  | some e =>
      rw [he] at h
      cases h
      exact ⟨rfl, e, rfl, rfl⟩

/-- A chain-lookup hit is an own hit on some object of the chain, the
slot based there. -/
theorem lookupNonIndexedAux_some (st : VMState) (k : JsSym) :
    ∀ (fuel oid : Nat) (sl : SlotRec),
      lookupNonIndexedAux st k fuel oid = some sl →
      ∃ o2, sl.base = some o2 ∧ getOwnNonIndexedSlot st o2 k = some sl := by
  intro fuel
  induction fuel with
  | zero => intro oid sl h; cases h
  | succ f ih =>
      intro oid sl h
      unfold lookupNonIndexedAux at h
      cases hown : getOwnNonIndexedSlot st oid k with
      | some sl0 =>
          rw [hown] at h
          cases h
          exact ⟨oid, (getOwnNonIndexedSlot_base st oid k sl hown).1, hown⟩
      | none =>
          rw [hown] at h
          cases hp : protoOf st oid with
          | some p => rw [hp] at h; exact ih p sl h
          | none => rw [hp] at h; cases h

/-- The generic slow path pushes exactly what the uncached
GetNonIndexedSlot method would return. -/
theorem slowGetById_value (st : VMState) (fb : TypeFeedBack) (oid : Nat)
    (k : JsSym) :
    getStepValue (slowGetById st fb oid k false) = getNonIndexedValue st oid k := by
  cases hl : lookupNonIndexed st oid k with
  | none => simp [slowGetById, getNonIndexedValue, hl, getStepValue]
  | some sl =>
      by_cases hacc : sl.attrs.isAccessorProp
      · cases hg : slotGetter sl <;>
          simp [slowGetById, getNonIndexedValue, hl, hacc, hg, getStepValue]
      · simp [slowGetById, getNonIndexedValue, hl, hacc, getStepValue]

/-- The slow path's resulting feedback is exactly the conditional
install. -/
theorem slowGetById_feedback (st : VMState) (fb : TypeFeedBack) (oid : Nat)
    (k : JsSym) (isTry : Bool) :
    getStepFeedback (slowGetById st fb oid k isTry)
      = installCache st (lookupNonIndexed st oid k) fb := by
  cases hl : lookupNonIndexed st oid k with
  | none => cases isTry <;> simp [slowGetById, hl, getStepFeedback]
  | some sl =>
      by_cases hacc : sl.attrs.isAccessorProp
      · cases hg : slotGetter sl <;>
          simp [slowGetById, hl, hacc, hg, getStepFeedback]
      · simp [slowGetById, hl, hacc, getStepFeedback]

/-- C6: under a consistent cache, a GET_BY_ID site on an object receiver
(a) always pushes the value the generic uncached slot lookup returns;
(b) on a hit - an alive weak structure pointer-equal to the receiver's -
reads slots at the cached offset directly, leaving the feedback alone;
(c) on a miss runs slow_get_by_id, whose feedback is the fresh
PropertyCache of the slot's base structure and offset exactly when the
resulting slot is load-cacheable and is untouched otherwise, and the
updated cache is again consistent. -/
theorem getById_cache_correct (st : VMState) (fb : TypeFeedBack) (oid : Nat)
    (k : JsSym) (hcons : cacheConsistent st k fb) :
    getStepValue (getByIdStep st fb (.cell oid) k false)
      = getNonIndexedValue st oid k
    ∧ (∀ alive s off, fb = .propertyCache alive s off → alive = true →
        s = (objAt st oid).structId →
        getByIdStep st fb (.cell oid) k false
          = .ok ((objAt st oid).slots.getD off .empty) fb)
    ∧ (isCacheHit st fb oid = false →
        getByIdStep st fb (.cell oid) k false = slowGetById st fb oid k false)
    ∧ (loadCacheable st (lookupNonIndexed st oid k) = false →
        getStepFeedback (slowGetById st fb oid k false) = fb)
    ∧ (∀ sl, lookupNonIndexed st oid k = some sl →
        loadCacheable st (some sl) = true →
        getStepFeedback (slowGetById st fb oid k false)
          = .propertyCache true (objAt st (sl.base.getD 0)).structId
              (sl.offset.getD 0))
    ∧ cacheConsistent st k (getStepFeedback (slowGetById st fb oid k false)) := by
  have hhit : ∀ alive s off, fb = .propertyCache alive s off → alive = true →
      s = (objAt st oid).structId →
      getByIdStep st fb (.cell oid) k false
        = .ok ((objAt st oid).slots.getD off .empty) fb := by
    intro alive s off hfb halive hs
    subst hfb halive hs
    simp [getByIdStep]
  have hvalhit : ∀ alive s off, fb = .propertyCache alive s off → alive = true →
      s = (objAt st oid).structId →
      getNonIndexedValue st oid k = .ok ((objAt st oid).slots.getD off .empty) := by
    intro alive s off hfb halive hs
    obtain ⟨e, he, heoff, heacc⟩ := hcons alive s off hfb
    rw [hs] at he
    have hown : getOwnNonIndexedSlot st oid k
        = some ⟨(objAt st oid).slots.getD e.offset .empty, e.attrs, some oid,
                some e.offset⟩ := by
      simp [getOwnNonIndexedSlot, he]
    have hl := lookupNonIndexed_own st oid k _ hown
    simp [getNonIndexedValue, hl, heacc, heoff]
  have hmiss : isCacheHit st fb oid = false →
      getByIdStep st fb (.cell oid) k false = slowGetById st fb oid k false := by
    intro hno
    cases hfb : fb with
    | noFeedback => simp [getByIdStep]
    | putByIdCache a b c d => simp [getByIdStep]
    | propertyCache alive s off =>
        rw [hfb] at hno
        simp [isCacheHit] at hno
        simp [getByIdStep]
        intro halive hs
        exact absurd hs (hno halive)
  have hfbinst := slowGetById_feedback st fb oid k false
  refine ⟨?_, hhit, hmiss, ?_, ?_, ?_⟩
  · by_cases hh : isCacheHit st fb oid = true
    · cases hfb : fb with
      | noFeedback => rw [hfb] at hh; simp [isCacheHit] at hh
      | putByIdCache a b c d => rw [hfb] at hh; simp [isCacheHit] at hh
      | propertyCache alive s off =>
          rw [hfb] at hh
          simp [isCacheHit] at hh
          rw [← hfb]
          rw [hhit alive s off hfb hh.1 hh.2, hvalhit alive s off hfb hh.1 hh.2]
          simp [getStepValue]
    · rw [hmiss (by simpa using hh)]
      exact slowGetById_value st fb oid k
  · intro hnc
    rw [hfbinst]
    unfold installCache
    rw [if_neg (by simp [hnc])]
  · intro sl hsl hc
    rw [hfbinst, hsl]
    unfold installCache
    rw [if_pos hc]
  · rw [hfbinst]
    by_cases hc : loadCacheable st (lookupNonIndexed st oid k) = true
    · cases hsl : lookupNonIndexed st oid k with
      | none => rw [hsl] at hc; simp [loadCacheable] at hc
      | some sl =>
          rw [hsl] at hc
          unfold installCache
          rw [if_pos hc]
          intro alive s off hinst
          obtain ⟨hoffsome, hnacc, hbase⟩ : sl.offset.isSome = true
              ∧ sl.attrs.isAccessorProp = false
              ∧ ∃ b, sl.base = some b := by
            simp [loadCacheable] at hc
            obtain ⟨⟨h1, h2⟩, h3⟩ := hc
            refine ⟨h1, by simpa using h2, ?_⟩
            cases hb : sl.base with
            | none => rw [hb] at h3; simp at h3
            | some b => exact ⟨b, rfl⟩
          obtain ⟨b, hb⟩ := hbase
          obtain ⟨o2, hbase2, hown2⟩ :=
            lookupNonIndexedAux_some st k (st.objs.length + 1) oid sl hsl
          obtain ⟨-, e, he, hsleq⟩ := getOwnNonIndexedSlot_base st o2 k sl hown2
          injection hinst with h1 h2 h3
          refine ⟨e, ?_, ?_, ?_⟩
          · rw [← h2]
            rw [hb] at hbase2
            cases hbase2
            simpa [hb] using he
          · rw [← h3, hsleq]
            rfl
          · rw [hsleq] at hnacc
            exact hnacc
    · unfold installCache
      rw [if_neg (by simpa using hc)]
      exact hcons

/-- Witness for the C6 theorem: on a concrete object holding a = 1, a
consistent alive cache hit pushes 1 with the feedback untouched, and an
empty-feedback site agrees with the generic lookup. -/
theorem getById_cache_correct_witness :
    getByIdStep stC6 (.propertyCache true 0 0) (.cell 0) (.key "a") false
      = .ok (.int32 1) (.propertyCache true 0 0)
    ∧ getStepValue (getByIdStep stC6 .noFeedback (.cell 0) (.key "a") false)
      = getNonIndexedValue stC6 0 (.key "a") := by
  have hcons : cacheConsistent stC6 (.key "a") (.propertyCache true 0 0) := by
    intro alive s off h
    injection h with h1 h2 h3
    subst h1
    subst h2
    subst h3
    exact ⟨⟨0, ⟨true, true, true, false⟩⟩, by decide, rfl, rfl⟩
  constructor
  · have h := (getById_cache_correct stC6 (.propertyCache true 0 0) 0
      (.key "a") hcons).2.1 true 0 0 rfl rfl (by decide)
    rw [h]
    decide
  · have hcons2 : cacheConsistent stC6 (.key "a") .noFeedback := by
      intro alive s off h
      cases h
    exact (getById_cache_correct stC6 .noFeedback 0 (.key "a") hcons2).1

/-- Inserting a key into a property table makes it resolve to the new
entry. -/
theorem structTableGet_insert_self (t : List (JsSym × MapEntry)) (k : JsSym)
    (e : MapEntry) : structTableGet (structTableInsert t k e) k = some e := by
  induction t with
  | nil => simp [structTableInsert, structTableGet]
  | cons p ps ih =>
      by_cases hp : p.1 = k
      · simp [structTableInsert, structTableGet, hp]
      · by_cases hf : (ps.find? (fun q => decide (q.1 = k))).isSome
        · have h1 : structTableInsert (p :: ps) k e
              = p :: ps.map (fun q => if q.1 = k then (k, e) else q) := by
            simp [structTableInsert, hp, hf]
          have h2 : structTableInsert ps k e
              = ps.map (fun q => if q.1 = k then (k, e) else q) := by
            simp [structTableInsert, hf]
          rw [h1]
          show structTableGet (p :: ps.map (fun q => if q.1 = k then (k, e) else q)) k
            = some e
          rw [structTableGet, List.find?_cons_of_neg _ (by simpa using hp)]
          rw [← structTableGet, ← h2, ih]
        · have h1 : structTableInsert (p :: ps) k e = p :: (ps ++ [(k, e)]) := by
            simp [structTableInsert, hp, hf]
          have h2 : structTableInsert ps k e = ps ++ [(k, e)] := by
            simp [structTableInsert, hf]
          rw [h1]
          show structTableGet (p :: (ps ++ [(k, e)])) k = some e
          rw [structTableGet, List.find?_cons_of_neg _ (by simpa using hp)]
          rw [← structTableGet, ← h2, ih]

/-- setObj leaves the structure heap alone. -/
theorem structAt_setObj (st : VMState) (oid : Nat) (f : ObjData → ObjData)
    (sid : Nat) : structAt (setObj st oid f) sid = structAt st sid := rfl

/-- setObj keeps the object count. -/
theorem length_objs_setObj (st : VMState) (oid : Nat) (f : ObjData → ObjData) :
    (setObj st oid f).objs.length = st.objs.length := by
  simp [setObj]

/-- Updating a live object is visible through objAt. -/
theorem objAt_setObj_self (st : VMState) (oid : Nat) (f : ObjData → ObjData)
    (h : oid < st.objs.length) : objAt (setObj st oid f) oid = f (objAt st oid) := by
  show (st.objs.set oid (f (objAt st oid))).getD oid _ = f (objAt st oid)
  rw [List.getD_eq_getElem?_getD, List.getElem?_set_eq_of_lt _ h]
  rfl

/-- Two states with the same object list agree on objAt. -/
theorem objAt_congr_objs (st st2 : VMState) (oid : Nat)
    (h : st2.objs = st.objs) : objAt st2 oid = objAt st oid := by
  unfold objAt
  rw [h]

/-- The freshly appended structure is at the old length. -/
theorem structAt_append_new (st : VMState) (child : StructureData) :
    structAt { st with structs := st.structs ++ [child] } st.structs.length
      = child := by
  show (st.structs ++ [child]).getD st.structs.length _ = child
  rw [List.getD_append_right st.structs [child] _ _ (le_refl _), Nat.sub_self]
  rfl

/-- resizeSlots always yields the requested size. -/
theorem length_resizeSlots (l : List JsValue) (n : Nat) :
    (resizeSlots l n).length = n := by
  simp [resizeSlots]
  omega

/-- What add_property_transition guarantees: the objects are untouched,
the child sits at the fresh id, resolves the name to the chosen offset
with the given attributes, keeps the prototype, and the offset is below
the child's slot count (given a well-formed deleted free-list). -/
theorem addPropertyTransition_spec (st : VMState) (sid : Nat) (k : JsSym)
    (a : Attrs)
    (hdel : ∀ d ∈ (structAt st sid).deleted, d < (structAt st sid).slotsSize) :
    (addPropertyTransition st sid k a).1.objs = st.objs
    ∧ (addPropertyTransition st sid k a).2.1 = st.structs.length
    ∧ structTableGet
        (structAt (addPropertyTransition st sid k a).1
          (addPropertyTransition st sid k a).2.1).table k
        = some ⟨(addPropertyTransition st sid k a).2.2, a⟩
    ∧ (addPropertyTransition st sid k a).2.2
        < (structAt (addPropertyTransition st sid k a).1
            (addPropertyTransition st sid k a).2.1).slotsSize
    ∧ (structAt (addPropertyTransition st sid k a).1
        (addPropertyTransition st sid k a).2.1).prototype
        = (structAt st sid).prototype := by
  cases hd : (structAt st sid).deleted with
  | nil =>
      have hunf : addPropertyTransition st sid k a
          = ({ st with structs := st.structs ++
                [⟨structTableInsert (structAt st sid).table k
                    ⟨(structAt st sid).slotsSize, a⟩,
                  (structAt st sid).prototype, [],
                  (structAt st sid).slotsSize + 1,
                  (structAt st sid).unique, (structAt st sid).indexed⟩] },
             st.structs.length, (structAt st sid).slotsSize) := by
        simp only [addPropertyTransition]
        rw [hd]
      refine ⟨by rw [hunf], by rw [hunf], ?_, ?_, ?_⟩
      · rw [hunf]
        dsimp only
        rw [structAt_append_new]
        exact structTableGet_insert_self _ _ _
      · rw [hunf]
        dsimp only
        rw [structAt_append_new]
        show (structAt st sid).slotsSize < (structAt st sid).slotsSize + 1
        omega
      · rw [hunf]
        dsimp only
        rw [structAt_append_new]
  | cons d rest =>
      have hunf : addPropertyTransition st sid k a
          = ({ st with structs := st.structs ++
                [⟨structTableInsert (structAt st sid).table k ⟨d, a⟩,
                  (structAt st sid).prototype, rest,
                  (structAt st sid).slotsSize,
                  (structAt st sid).unique, (structAt st sid).indexed⟩] },
             st.structs.length, d) := by
        simp only [addPropertyTransition]
        rw [hd]
      refine ⟨by rw [hunf], by rw [hunf], ?_, ?_, ?_⟩
      · rw [hunf]
        dsimp only
        rw [structAt_append_new]
        exact structTableGet_insert_self _ _ _
      · rw [hunf]
        dsimp only
        rw [structAt_append_new]
        exact hdel d (by rw [hd]; exact List.mem_cons_self d rest)
      · rw [hunf]
        dsimp only
        rw [structAt_append_new]

/-- The suppression-mask value-only descriptor is accepted on any data
property that is writable. -/
theorem acceptedValueOnly (v0 : JsValue) (a : Attrs) (v : JsValue)
    (hacc : a.isAccessorProp = false) (hw : a.writable = true) :
    definedPropertyAccepted v0 a (descValueOnly v) false = .ok (true, true) := by
  cases hconf : a.configurable <;>
    simp [definedPropertyAccepted, descValueOnly, Desc.isEmptyDesc,
      Desc.isAccessorDesc, hacc, hw, hconf]


/-- Record eta for attribute tuples, used to discharge the
attributes-unchanged test in the in-place replace path. -/
theorem Attrs.eta (a : Attrs) :
    (⟨a.writable, a.enumerable, a.configurable, a.isAccessorProp⟩ : Attrs) = a := rfl

/-- On an extensible object, the add path of
DefineOwnNonIndexedPropertySlotMethod installs the property as a fresh
W | C | E data entry of a transitioned structure and stores the value at
the fresh offset. -/
theorem defineOwnAddPath_adds (st : VMState) (oid : Nat) (k : JsSym) (v : JsValue)
    (hoid : oid < st.objs.length)
    (hext : (objAt st oid).extensible = true)
    (hdel : ∀ d ∈ (structAt st (objAt st oid).structId).deleted,
        d < (structAt st (objAt st oid).structId).slotsSize) :
    ∃ st2 off,
      defineOwnAddPath st oid k (descWCE v) false = .ok (st2, true, .newSlot off)
      ∧ structTableGet (structAt st2 (objAt st2 oid).structId).table k
          = some ⟨off, attrsWCE⟩
      ∧ (objAt st2 oid).slots.getD off .empty = v := by
  obtain ⟨hobjs, hsid, hget, hoff, hproto⟩ :=
    addPropertyTransition_spec st (objAt st oid).structId k
      ⟨true, true, true, false⟩ hdel
  set r := addPropertyTransition st (objAt st oid).structId k
    ⟨true, true, true, false⟩ with hr
  refine ⟨setObj r.1 oid (fun o =>
      { o with
         structId := r.2.1
         slots := (resizeSlots o.slots (structAt r.1 r.2.1).slotsSize).set r.2.2 v }),
    r.2.2, ?_, ?_, ?_⟩
  · simp [defineOwnAddPath, hext, storedSlotNew, descWCE, Desc.isAccessorDesc, hr]
  · have hoid2 : oid < r.1.objs.length := by
      rw [hobjs]
      exact hoid
    have hobj2 := objAt_setObj_self r.1 oid (fun o =>
      { o with
         structId := r.2.1
         slots := (resizeSlots o.slots (structAt r.1 r.2.1).slotsSize).set r.2.2 v })
      hoid2
    have hobjr : objAt r.1 oid = objAt st oid := objAt_congr_objs _ _ oid hobjs
    rw [hobjr] at hobj2
    rw [hobj2]
    dsimp only
    rw [structAt_setObj]
    exact hget
  · have hoid2 : oid < r.1.objs.length := by
      rw [hobjs]
      exact hoid
    have hobj2 := objAt_setObj_self r.1 oid (fun o =>
      { o with
         structId := r.2.1
         slots := (resizeSlots o.slots (structAt r.1 r.2.1).slotsSize).set r.2.2 v })
      hoid2
    have hobjr : objAt r.1 oid = objAt st oid := objAt_congr_objs _ _ oid hobjs
    rw [hobjr] at hobj2
    rw [hobj2]
    dsimp only
    rw [List.getD_eq_getElem?_getD, List.getElem?_set_eq_of_lt]
    · rfl
    · rw [length_resizeSlots]
      exact hoff

/-- C1 (amended): on an EXTENSIBLE receiver, a non-indexed put followed
by a get of the same name on the same object returns exactly the stored
value, with the post-write structure resolving the name to a data entry
whose slot holds that value, in two regimes: the name is an own data
property that is writable (in-place replace at its recorded offset), or
the name is absent from the receiver and no object on the prototype
chain resolves it to an accessor property (fresh W | C | E property
through an add-property transition; the deleted-offset list of the
receiver structure must be within its slot count, an invariant of
structures the transitions build).  The claim as stated is false on two
counts, both caused by the dead inner else of can_put_non_indexed
(js_object.rs, can_put_non_indexed): a found data property falls
through to is_extensible(), so an own writable property on a
non-extensible object is silently NOT written, and writability of a
prototype data property never blocks anything; and an accessor without
a setter anywhere on the chain makes the put a silent no-op even though
no setter exists on the chain. -/
theorem putThenGet_returns_value (st : VMState) (oid : Nat) (k : JsSym) (v : JsValue)
    (hoid : oid < st.objs.length)
    (hext : (objAt st oid).extensible = true)
    (hcase :
      (∃ e, structTableGet (structAt st (objAt st oid).structId).table k = some e
        ∧ e.attrs.isAccessorProp = false ∧ e.attrs.writable = true
        ∧ e.offset < (objAt st oid).slots.length)
      ∨ (getOwnNonIndexedSlot st oid k = none
        ∧ (∀ sl, lookupNonIndexed st oid k = some sl →
            sl.attrs.isAccessorProp = false)
        ∧ ∀ d ∈ (structAt st (objAt st oid).structId).deleted,
            d < (structAt st (objAt st oid).structId).slotsSize)) :
    c1Conclusion st oid k v := by
  rcases hcase with ⟨e, he, heacc, hew, heb⟩ | ⟨hnone, hacc, hdel⟩
  · have hown : getOwnNonIndexedSlot st oid k
        = some ⟨(objAt st oid).slots.getD e.offset .empty, e.attrs, some oid,
                some e.offset⟩ := by
      simp [getOwnNonIndexedSlot, he]
    have hlook := lookupNonIndexed_own st oid k _ hown
    have hcp : canPutNonIndexed st oid k = true := by
      simp [canPutNonIndexed, hlook, heacc, hext]
    have haccepted := acceptedValueOnly
      ((objAt st oid).slots.getD e.offset .empty) e.attrs v heacc hew
    rw [List.getD_eq_getElem?_getD] at haccepted
    simp only [descValueOnly] at haccepted
    have hdef : defineOwnNonIndexed st oid k (descValueOnly v)
        (some ⟨(objAt st oid).slots.getD e.offset .empty, e.attrs, some oid,
               some e.offset⟩) true false
        = .ok (setObj st oid (fun o => { o with slots := o.slots.set e.offset v }),
               true, .replace e.offset) := by
      simp [defineOwnNonIndexed, haccepted, mergeDesc, descValueOnly, Attrs.eta]
    rw [List.getD_eq_getElem?_getD] at hdef
    have hput : putNonIndexedSlot st oid k v false
        = .ok (setObj st oid (fun o => { o with slots := o.slots.set e.offset v }),
               some ⟨(objAt st oid).slots.getD e.offset .empty, e.attrs, some oid,
                     some e.offset⟩, .replace e.offset) := by
      simp [putNonIndexedSlot, hlook, hcp, heacc, hdef]
    have hobj2 : objAt (setObj st oid
          (fun o => { o with slots := o.slots.set e.offset v })) oid
        = { objAt st oid with slots := (objAt st oid).slots.set e.offset v } :=
      objAt_setObj_self st oid _ hoid
    have hslotv : ((objAt st oid).slots.set e.offset v).getD e.offset .empty = v := by
      rw [List.getD_eq_getElem?_getD, List.getElem?_set_eq_of_lt _ heb]
      rfl
    have hown2 : getOwnNonIndexedSlot
        (setObj st oid (fun o => { o with slots := o.slots.set e.offset v })) oid k
        = some ⟨v, e.attrs, some oid, some e.offset⟩ := by
      unfold getOwnNonIndexedSlot
      rw [hobj2, structAt_setObj]
      show (match structTableGet (structAt st (objAt st oid).structId).table k with
            | some e2 => some (⟨((objAt st oid).slots.set e.offset v).getD e2.offset
                .empty, e2.attrs, some oid, some e2.offset⟩ : SlotRec)
            | none => none) = _
      rw [he]
      dsimp only
      rw [hslotv]
    refine ⟨_, hput, ?_, e, ?_, ?_, heacc⟩
    · have hl2 := lookupNonIndexed_own _ oid k _ hown2
      simp [getNonIndexedValue, hl2, heacc]
    · show structTableGet (structAt _ (objAt _ oid).structId).table k = some e
      rw [hobj2, structAt_setObj]
      exact he
    · show (objAt _ oid).slots.getD e.offset .empty = v
      rw [hobj2]
      exact hslotv
  · obtain ⟨st2, off, hdp, htab, hval⟩ :=
      defineOwnAddPath_adds st oid k v hoid hext hdel
    have hval2 := hval
    rw [List.getD_eq_getElem?_getD] at hval2
    have hown2 : getOwnNonIndexedSlot st2 oid k
        = some ⟨v, attrsWCE, some oid, some off⟩ := by
      simp [getOwnNonIndexedSlot, htab, hval2]
    have hget2 : getNonIndexedValue st2 oid k = .ok v := by
      have hl2 := lookupNonIndexed_own st2 oid k _ hown2
      simp [getNonIndexedValue, hl2, attrsWCE]
    have hcp : canPutNonIndexed st oid k = true := by
      cases hlk : lookupNonIndexed st oid k with
      | none => simp [canPutNonIndexed, hlk, hext]
      | some sl => simp [canPutNonIndexed, hlk, hacc sl hlk, hext]
    cases hlk : lookupNonIndexed st oid k with
    | none =>
        have hput : putNonIndexedSlot st oid k v false
            = .ok (st2, none, .newSlot off) := by
          simp [putNonIndexedSlot, hlk, hcp, defineOwnNonIndexed, hnone, hdp]
        exact ⟨_, hput, hget2, ⟨off, attrsWCE⟩, htab, hval, rfl⟩
    | some sl =>
        obtain ⟨o2, hb, hob⟩ := lookupNonIndexedAux_some st k _ oid sl hlk
        have hbne : sl.base ≠ some oid := by
          intro hEq
          rw [hEq] at hb
          injection hb with h2
          rw [← h2] at hob
          rw [hnone] at hob
          simp at hob
        have hslacc := hacc sl hlk
        have hput : putNonIndexedSlot st oid k v false
            = .ok (st2, some sl, .newSlot off) := by
          simp [putNonIndexedSlot, hlk, hcp, hslacc, hbne, defineOwnNonIndexed, hdp]
        exact ⟨_, hput, hget2, ⟨off, attrsWCE⟩, htab, hval, rfl⟩

/-- Witness for the amended C1 theorem on a concrete extensible object
owning writable x = 0: putting 5 then getting x yields 5. -/
theorem putThenGet_returns_value_witness :
    c1Conclusion stWitC1 0 (.key "x") (.int32 5) :=
putThenGet_returns_value stWitC1 0 (.key "x") (.int32 5) (by decide) (by decide)
  (.inl ⟨⟨0, ⟨true, true, true, false⟩⟩, by decide, by decide, by decide, by decide⟩)

/-- Counterexamples to C1 as stated: on a NON-extensible object owning
writable x, and on an extensible object whose prototype owns x as an
accessor with neither getter nor setter, the stated hypotheses hold but
the put is a silent no-op and the get does not return the stored
value. -/
theorem c1_stated_counterexample :
    ¬ c1Stated c1StateA 0 (.key "x") (.int32 1)
    ∧ ¬ c1Stated c1StateB 0 (.key "x") (.int32 1) := by
  constructor
  · intro h
    obtain ⟨r, hput, hget, -⟩ := h (by decide)
    have hv : putNonIndexedSlot c1StateA 0 (.key "x") (.int32 1) false
        = .ok (c1StateA, lookupNonIndexed c1StateA 0 (.key "x"), .noResult) := by
      decide
    rw [hv] at hput
    injection hput with h2
    rw [← h2] at hget
    exact absurd hget (by decide)
  · intro h
    obtain ⟨r, hput, hget, -⟩ := h (by decide)
    have hv : putNonIndexedSlot c1StateB 0 (.key "x") (.int32 1) false
        = .ok (c1StateB, lookupNonIndexed c1StateB 0 (.key "x"), .noResult) := by
      decide
    rw [hv] at hput
    injection hput with h2
    rw [← h2] at hget
    exact absurd hget (by decide)

/-- Witness for the amended C5 theorem at a concrete two-argument call
frame with a non-callable callee. -/
theorem opCall_layout_witness :
    decodeCall 2 [.int32 13, .int32 12, .int32 7, .int32 9, .int32 1]
      = some ⟨[.int32 12, .int32 13], .int32 7, .int32 9, [.int32 1]⟩
    ∧ evalOpCall (fun _ => false) 2 [.int32 13, .int32 12, .int32 7, .int32 9, .int32 1]
      = .notCallable (.typeError "not a callable object") := by
  have h := opCall_layout [.int32 12, .int32 13] [.int32 1] (.int32 7) (.int32 9)
    (fun _ => false)
  constructor
  · simpa using h.1
  · simpa using h.2 rfl
